import Mathlib

/-!
# portal: framing, transport and connection manager

A shallow embedding of `deps/portal/src/Protocol.cpp`, `Channel.cpp` and
`DeviceConnection.cpp`, followed by theorems about the embedded functions.

Bytes (`char` elements of `std::vector<char>`) are natural numbers; the code
only ever compares them with the constants 0 and 1.  Loop indices
(`uint32_t` in the source) are natural numbers: the embedding is exact for
accumulators shorter than 2^32 bytes, where `i + 3` cannot wrap.
-/

namespace portal

/-! ## Protocol.cpp -/

/-- Modelled from the spec: the `DataPacket` record declared in the absent
`Protocol.hpp` (format version, kind, correlation tag, payload). -/
structure DataPacket where
  version : Nat
  type : Nat
  tag : Nat
  data : List Nat
  deriving DecidableEq

/-- The framer object: its only member used by the code is `buffer`. -/
structure SimpleDataPacketProtocol where
  buffer : List Nat
  deriving DecidableEq

/-- The condition of the `if` inside the scan of `processData`
(Protocol.cpp lines 62-72), at index `i`.  The loop guard `i + 3 < size`
keeps the four reads in bounds. -/
def startCodeAt (buffer : List Nat) (i : Nat) : Bool :=
  buffer.getD i 0 == 0 &&
  buffer.getD (i + 1) 0 == 0 &&
  (buffer.getD (i + 2) 0 == 1 ||
    (buffer.getD (i + 2) 0 == 0 && buffer.getD (i + 3) 0 == 1))

/-- The `for` loop of `processData` (Protocol.cpp lines 58-77), from index
`i` on: the value `naluLength` has after the loop.  `fuel` bounds the number
of iterations; the caller passes `buffer.length`. -/
def scanLoop (buffer : List Nat) (currentStartCodeSize : Nat) : Nat → Nat → Nat
  | 0, _ => 0
  | fuel + 1, i =>
    if i + 3 < buffer.length then
      if startCodeAt buffer i then i - currentStartCodeSize
      else scanLoop buffer currentStartCodeSize fuel (i + 1)
    else 0

/-- The `while` loop of `processData` (Protocol.cpp lines 54-106): the
packets pushed and the buffer left.  `fuel` bounds the number of iterations;
the caller passes `buffer.length`. -/
def processLoop : Nat → List Nat → List DataPacket × List Nat
  | 0, buffer => ([], buffer)
  | fuel + 1, buffer =>
    if buffer.length ≥ 4 then
      let currentStartCodeSize := if buffer.getD 2 0 == 1 then 3 else 4
      let naluLength :=
        scanLoop buffer currentStartCodeSize buffer.length currentStartCodeSize
      if naluLength == 0 then ([], buffer)
      else
        let payload :=
          [0, 0, 0, 1] ++ (buffer.drop currentStartCodeSize).take naluLength
        let packet : DataPacket := ⟨1, 101, 0, payload⟩
        let rest := processLoop fuel (buffer.drop (currentStartCodeSize + naluLength))
        (packet :: rest.1, rest.2)
    else ([], buffer)

/-- `SimpleDataPacketProtocol::processData`: the packets returned and the
framer afterwards. -/
def SimpleDataPacketProtocol.processData (self : SimpleDataPacketProtocol)
    (data : List Nat) : List DataPacket × SimpleDataPacketProtocol :=
  let buffer := if data.length > 0 then self.buffer ++ data else self.buffer
  let r := processLoop buffer.length buffer
  (r.1, ⟨r.2⟩)

/-- `SimpleDataPacketProtocol::reset`. -/
def SimpleDataPacketProtocol.reset (_self : SimpleDataPacketProtocol) :
    SimpleDataPacketProtocol :=
  ⟨[]⟩

/-- A freshly constructed framer: the buffer member starts empty. -/
def SimpleDataPacketProtocol.new : SimpleDataPacketProtocol :=
  ⟨[]⟩

/-! ## Channel.cpp -/

/-- Value of `EINTR` in `<errno.h>` (Linux). -/
def EINTR : Int := 4

/-- Value of `EAGAIN` in `<errno.h>` (Linux). -/
def EAGAIN : Int := 11

/-- Value of `EINVAL` in `<errno.h>` (Linux). -/
def EINVAL : Int := 22

/-- Value of `ECONNRESET` in `<errno.h>` (Linux). -/
def ECONNRESET : Int := 104

/-- Value of `ETIMEDOUT` in `<errno.h>` (Linux). -/
def ETIMEDOUT : Int := 110

/-- Modelled from the spec: the enum `Channel::State` declared in the absent
`Channel.hpp` (the spec's TransportState). -/
inductive Channel.State
  | Disconnected
  | Connecting
  | Connected
  | Errored
  deriving DecidableEq

/-- What a `Channel` member function does to the world outside the object:
observer callbacks (made only when `delegate.lock()` succeeds), system calls
on the descriptor, and operations on the worker thread. -/
inductive Channel.Effect
  | channelDidChangeState (state : Channel.State)
  | channelDidReceiveData (size : Nat)
  | recv (fd : Int)
  | send (fd : Int) (size : Nat)
  | close (fd : Int)
  | threadStart
  | threadJoin
  deriving DecidableEq

/-- The members of `Channel` the code reads and writes.  `delegateAlive`
tells whether `delegate.lock()` yields an observer, `threadJoinable` whether
`_thread.joinable()`. -/
structure Channel where
  port : Int
  conn : Int
  _state : Channel.State
  running : Bool
  delegateAlive : Bool
  threadJoinable : Bool
  deriving DecidableEq

/-- `Channel::getState`. -/
def Channel.getState (self : Channel) : Channel.State :=
  self._state

/-- `Channel::setState` (Channel.cpp lines 95-107). -/
def Channel.setState (self : Channel) (state : Channel.State) :
    Channel × List Channel.Effect :=
  if state = self.getState then (self, [])
  else
    ({ self with _state := state },
      if self.delegateAlive then [Channel.Effect.channelDidChangeState state] else [])

/-- `Channel::Channel(port_, conn_)`: no observer is registered yet, no
thread exists, and `setState(State::Disconnected)` leaves the state
`Disconnected`; `running` is taken to start as `false`. -/
def Channel.new (port_ conn_ : Int) : Channel :=
  { port := port_, conn := conn_, _state := Channel.State.Disconnected, running := false,
    delegateAlive := false, threadJoinable := false }

/-- `Channel::StartInternalThread` (lines 110-114).  Assigning to a
`std::thread` that is still joinable calls `std::terminate`: no result. -/
def Channel.StartInternalThread (self : Channel) :
    Option (Bool × Channel × List Channel.Effect) :=
  if self.threadJoinable then none
  else some (true, { self with threadJoinable := true }, [Channel.Effect.threadStart])

/-- `Channel::start` (lines 42-55). -/
def Channel.start (self : Channel) : Option (Bool × Channel × List Channel.Effect) :=
  if self.getState = Channel.State.Connected then some (false, self, [])
  else
    match self.StartInternalThread with
    | none => none
    | some (r, s1, e1) =>
      let s2 := { s1 with running := r }
      if r = true then
        let s3 := s2.setState Channel.State.Connecting
        some (r, s3.1, e1 ++ s3.2)
      else some (r, s2, e1)

/-- `Channel::WaitForInternalThreadToExit` (lines 117-125). -/
def Channel.WaitForInternalThreadToExit (self : Channel) : Channel × List Channel.Effect :=
  let s1 := { self with running := false }
  if s1.threadJoinable then ({ s1 with threadJoinable := false }, [Channel.Effect.threadJoin])
  else (s1, [])

/-- `Channel::close` (lines 57-70).  `onInternalThread` tells whether the
caller is the worker thread, `closeRet` is what `::close(conn)` returns; the
`int` result is converted to the `bool` return type. -/
def Channel.close (self : Channel) (onInternalThread : Bool) (closeRet : Int) :
    Bool × Channel × List Channel.Effect :=
  let s1 := { self with running := false }
  let w := if !onInternalThread then s1.WaitForInternalThreadToExit else (s1, [])
  let ret := closeRet
  (ret != 0, w.1, w.2 ++ [Channel.Effect.close self.conn])

/-- `Channel::~Channel` (lines 35-40): `running = false`, then
`WaitForInternalThreadToExit`.  `onInternalThread` tells whether the caller
is the worker thread; there the destructor has no result: the wait locks
`worker_mutex`, which the worker holds during the callbacks of a successful
read, and then joins the very thread that runs it.  The result is the list
of effects. -/
def Channel.destructor (self : Channel) (onInternalThread : Bool) :
    Option (List Channel.Effect) :=
  if onInternalThread then none
  else
    let s1 := { self with running := false }
    some s1.WaitForInternalThreadToExit.2

/-- Release of the `std::shared_ptr<Channel>` a manager holds, by
`channel = nullptr` or by assigning another channel to it: a null pointer
releases nothing; otherwise the manager is the channel's only owner and
`~Channel` runs. -/
def releaseChannel : Option Channel → Bool → Option (List Channel.Effect)
  | none, _ => some []
  | some old, onInternalThread => old.destructor onInternalThread

/-- `Channel::send` (lines 72-93).  `sendRet` is what `::send` returns. -/
def Channel.send (self : Channel) (data : List Nat) (sendRet : Int) :
    Bool × List Channel.Effect :=
  if self.getState ≠ Channel.State.Connected then (false, [])
  else
    let ret := sendRet
    if ret < 0 then (true, [Channel.Effect.send self.conn data.length])
    else (false, [Channel.Effect.send self.conn data.length])

/-- The `do ... while (eagain)` loop of `socket_check_fd` (lines 148-173).
Each element of the list is what one `select` call answers: its return value
and `errno`.  No result when the answers run out. -/
def socket_check_fd.loop : List (Int × Int) → Option Int
  | [] => none
  | (sret, errno) :: rest =>
    if sret < 0 then
      if errno = EINTR then socket_check_fd.loop rest
      else if errno = EAGAIN then some sret
      else some (-1)
    else if sret = 0 then some (-ETIMEDOUT)
    else some sret

/-- `socket_check_fd` (lines 132-176). -/
def socket_check_fd (fd : Int) (selects : List (Int × Int)) : Option Int :=
  if fd < 0 then some (-1) else socket_check_fd.loop selects

/-- The body of the worker loop after `int ret = socket_check_fd(conn, 1000)`
(Channel.cpp lines 194-239).  `recvRet` is what `recv` returns (`ssize_t`),
stored into the `uint32_t numberOfBytesReceived`, hence reduced modulo 2^32;
`errno` is the error number after `recv`; `closeRet` what `::close` returns. -/
def Channel.receive (self : Channel) (ret0 recvRet errno closeRet : Int) :
    Channel × List Channel.Effect :=
  let r : Int × Nat × List Channel.Effect :=
    if ret0 > 0 then
      let numberOfBytesReceived : Nat := (recvRet % 2 ^ 32).toNat
      if ret0 > 0 && numberOfBytesReceived == 0 then
        (-ECONNRESET, numberOfBytesReceived, [Channel.Effect.recv self.conn])
      else if numberOfBytesReceived < 0 then
        (-errno, 0, [Channel.Effect.recv self.conn])
      else (0, numberOfBytesReceived, [Channel.Effect.recv self.conn])
    else (ret0, 0, [])
  let ret := r.1
  let numberOfBytesReceived := r.2.1
  if ret = 0 then
    let s1 :=
      if self.getState = Channel.State.Connecting then self.setState Channel.State.Connected
      else (self, [])
    let e2 :=
      if numberOfBytesReceived > 0 then
        if s1.1.delegateAlive then [Channel.Effect.channelDidReceiveData numberOfBytesReceived]
        else []
      else []
    (s1.1, r.2.2 ++ s1.2 ++ e2)
  else if ret = -ETIMEDOUT then (self, r.2.2)
  else
    let c := self.close true closeRet
    let s := c.2.1.setState Channel.State.Errored
    (s.1, r.2.2 ++ c.2.2 ++ s.2)

/-- One iteration of the `while (running)` loop of
`Channel::InternalThreadEntry` (lines 181-240); when the loop condition
fails or the state is `Errored` the thread function returns and nothing
changes. -/
def Channel.InternalThreadEntry (self : Channel) (selects : List (Int × Int))
    (recvRet errno closeRet : Int) : Option (Channel × List Channel.Effect) :=
  if self.running = false then some (self, [])
  else if self.getState = Channel.State.Errored then some (self, [])
  else
    match socket_check_fd self.conn selects with
    | none => none
    | some ret => some (self.receive ret recvRet errno closeRet)

/-! ## DeviceConnection.cpp -/

/-- Modelled from the spec: the enum `DeviceConnection::State` declared in
the absent `DeviceConnection.hpp` (the spec's ConnectionState). -/
inductive DeviceConnection.State
  | Disconnected
  | Connecting
  | Connected
  | FailedToConnect
  | ImpossibleToConnect
  | Errored
  deriving DecidableEq

/-- The system calls `create_socket` makes. -/
inductive Syscall
  | socket
  | setsockopt (fd : Int)
  | connect (fd : Int)
  | close (fd : Int)
  deriving DecidableEq

/-- What the operating system answers during one `create_socket` call: the
return value of `socket`, `setsockopt` and `connect`, each with the `errno`
it leaves on failure. -/
structure SocketEnv where
  socketRet : Int
  socketErrno : Int
  setsockoptRet : Int
  setsockoptErrno : Int
  connectRet : Int
  connectErrno : Int
  deriving DecidableEq

/-- `create_socket` (DeviceConnection.cpp lines 48-87): the value returned
and the system calls made.  `inet_pton` stands for the C library's
`inet_pton(AF_INET, host, _)`, whose result is positive exactly for a valid
dotted-decimal IPv4 literal. -/
def create_socket (inet_pton : String → Int) (host : String) (port : Int) (os : SocketEnv) :
    Int × List Syscall :=
  if port < 1 || port > 65535 then (-EINVAL, [])
  else if inet_pton host ≤ 0 then (-EINVAL, [])
  else
    let fd := os.socketRet
    if fd < 0 then (-os.socketErrno, [Syscall.socket])
    else if os.setsockoptRet < 0 then
      (-os.setsockoptErrno, [Syscall.socket, Syscall.setsockopt fd, Syscall.close fd])
    else if os.connectRet < 0 then
      (-os.connectErrno,
        [Syscall.socket, Syscall.setsockopt fd, Syscall.connect fd, Syscall.close fd])
    else (fd, [Syscall.socket, Syscall.setsockopt fd, Syscall.connect fd])

/-- What a `DeviceConnection` member function does outside the object:
callbacks to its own observer (made only when `delegate.lock()` succeeds),
calls of `create_socket` with the value returned and the system calls made,
and the effects of the owned channel. -/
inductive DeviceConnection.Effect
  | connectionDidChangeState (state : DeviceConnection.State)
  | connectionDidRecieveData (size : Nat)
  | createSocket (ret : Int) (calls : List Syscall)
  | channel (e : Channel.Effect)
  deriving DecidableEq

/-- The members of `DeviceConnection`; `channel` is `none` for a null
pointer, `delegateAlive` tells whether `delegate.lock()` yields an observer. -/
structure DeviceConnection where
  host : String
  port : Int
  _state : DeviceConnection.State
  channel : Option Channel
  delegateAlive : Bool
  deriving DecidableEq

/-- `DeviceConnection::DeviceConnection(host, port)` (lines 36-41). -/
def DeviceConnection.new (host : String) (port : Int) : DeviceConnection :=
  { host := host, port := port, _state := DeviceConnection.State.Disconnected,
    channel := none, delegateAlive := false }

/-- `DeviceConnection::getState`. -/
def DeviceConnection.getState (self : DeviceConnection) : DeviceConnection.State :=
  self._state

/-- `DeviceConnection::setState` (lines 186-199). -/
def DeviceConnection.setState (self : DeviceConnection) (state : DeviceConnection.State) :
    DeviceConnection × List DeviceConnection.Effect :=
  if self.getState = state then (self, [])
  else
    ({ self with _state := state },
      if self.delegateAlive then [DeviceConnection.Effect.connectionDidChangeState state]
      else [])

/-- `DeviceConnection::channelDidChangeState` (lines 149-166). -/
def DeviceConnection.channelDidChangeState (self : DeviceConnection)
    (state : Channel.State) : DeviceConnection × List DeviceConnection.Effect :=
  if state = Channel.State.Disconnected then
    self.setState DeviceConnection.State.Disconnected
  else if state = Channel.State.Errored then
    self.setState DeviceConnection.State.Errored
  else if self.getState = DeviceConnection.State.Connecting ∧
      state = Channel.State.Connected then
    self.setState DeviceConnection.State.Connected
  else (self, [])

/-- `DeviceConnection::channelDidReceiveData` (lines 168-173). -/
def DeviceConnection.channelDidReceiveData (self : DeviceConnection) (size : Nat) :
    DeviceConnection × List DeviceConnection.Effect :=
  (self, if self.delegateAlive then [DeviceConnection.Effect.connectionDidRecieveData size]
    else [])

/-- The channel's effects as seen from the manager that is its observer:
each is recorded, and each observer callback runs the manager's handler. -/
def DeviceConnection.observe (self : DeviceConnection) :
    List Channel.Effect → DeviceConnection × List DeviceConnection.Effect
  | [] => (self, [])
  | e :: es =>
    let r1 : DeviceConnection × List DeviceConnection.Effect :=
      match e with
      | Channel.Effect.channelDidChangeState st => self.channelDidChangeState st
      | Channel.Effect.channelDidReceiveData n => self.channelDidReceiveData n
      | _ => (self, [])
    let r2 := DeviceConnection.observe r1.1 es
    (r2.1, DeviceConnection.Effect.channel e :: r1.2 ++ r2.2)

/-- The `while (now() < deadline)` loop of `DeviceConnection::connect`
(lines 104-121) and the code after it (lines 123-125).  `clock` lists the
successive readings of `steady_clock::now()` in milliseconds, `attempts k`
is what the operating system answers during the `k`-th call of
`create_socket`, `onInternalThread` tells whether the caller is the worker
thread of the channel the manager owns.  On success the new channel is
assigned to `channel`, which releases the channel owned before, then it is
given the manager as observer and started.  No result when the clock
readings run out, when the release has none, or when `Channel::start` has
none. -/
def DeviceConnection.connectLoop (inet_pton : String → Int) (deadline : Nat)
    (attempts : Nat → SocketEnv) (onInternalThread : Bool) (self : DeviceConnection) :
    List Nat → Nat → Option (Bool × DeviceConnection × List DeviceConnection.Effect)
  | [], _ => none
  | now :: clock, k =>
    if now < deadline then
      let r := create_socket inet_pton self.host self.port (attempts k)
      let socketHandle := r.1
      if socketHandle ≥ 0 then
        let ch := { Channel.new self.port socketHandle with delegateAlive := true }
        match releaseChannel self.channel onInternalThread with
        | none => none
        | some rel =>
          match ch.start with
          | none => none
          | some (_, ch1, effs) =>
            let o := DeviceConnection.observe { self with channel := some ch1 } effs
            some (false, o.1,
              DeviceConnection.Effect.createSocket r.1 r.2 ::
                (rel.map DeviceConnection.Effect.channel ++ o.2))
      else if socketHandle = -EINVAL then
        let s := self.setState DeviceConnection.State.ImpossibleToConnect
        some (true, s.1, DeviceConnection.Effect.createSocket r.1 r.2 :: s.2)
      else
        match DeviceConnection.connectLoop inet_pton deadline attempts onInternalThread self
          clock (k + 1) with
        | none => none
        | some (b, d, effs) => some (b, d, DeviceConnection.Effect.createSocket r.1 r.2 :: effs)
    else
      let s := self.setState DeviceConnection.State.FailedToConnect
      some (true, s.1, s.2)

/-- `DeviceConnection::connect` (lines 89-126).  The first clock reading
fixes the deadline, 200 ms later. -/
def DeviceConnection.connect (self : DeviceConnection) (inet_pton : String → Int)
    (clock : List Nat) (attempts : Nat → SocketEnv) (onInternalThread : Bool) :
    Option (Bool × DeviceConnection × List DeviceConnection.Effect) :=
  let state := self.getState
  if state = DeviceConnection.State.Connecting then some (false, self, [])
  else
    let s := self.setState DeviceConnection.State.Connecting
    let connectTimeoutMs := 200
    match clock with
    | [] => none
    | now :: clock1 =>
      let deadline := now + connectTimeoutMs
      match DeviceConnection.connectLoop inet_pton deadline attempts onInternalThread s.1
        clock1 0 with
      | none => none
      | some (b, d, effs) => some (b, d, s.2 ++ effs)

/-- `DeviceConnection::disconnect` (lines 128-142).  `onInternalThread`
tells whether the caller is the worker thread of the owned channel,
`closeRet` is what `::close` returns in `Channel::close`.  When `ret == 0`
the statement `channel = nullptr` releases the channel.  No result when the
state is `Connected` and `channel` is null, or when the release has none. -/
def DeviceConnection.disconnect (self : DeviceConnection) (onInternalThread : Bool)
    (closeRet : Int) : Option (Bool × DeviceConnection × List DeviceConnection.Effect) :=
  if self.getState ≠ DeviceConnection.State.Connected then some (false, self, [])
  else
    match self.channel with
    | none => none
    | some ch =>
      let c := ch.close onInternalThread closeRet
      let ret : Bool := c.1
      if ret = false then
        match releaseChannel (some c.2.1) onInternalThread with
        | none => none
        | some rel =>
          let s2 :=
            DeviceConnection.setState { self with channel := none }
              DeviceConnection.State.Disconnected
          some (ret, s2.1, (c.2.2 ++ rel).map DeviceConnection.Effect.channel ++ s2.2)
      else
        let s2 :=
          DeviceConnection.setState { self with channel := some c.2.1 }
            DeviceConnection.State.Disconnected
        some (ret, s2.1, c.2.2.map DeviceConnection.Effect.channel ++ s2.2)

/-! ## Definitions used to state the properties -/

/-- Width of the head start code as `processData` computes it. -/
def headSize (buffer : List Nat) : Nat :=
  if buffer.getD 2 0 == 1 then 3 else 4

/-- The `naluLength` the scan of `processData` computes for a buffer. -/
def naluLen (buffer : List Nat) : Nat :=
  scanLoop buffer (headSize buffer) buffer.length (headSize buffer)

/-- The packet `processData` builds from the head of a buffer. -/
def headPacket (buffer : List Nat) : DataPacket :=
  ⟨1, 101, 0, [0, 0, 0, 1] ++ (buffer.drop (headSize buffer)).take (naluLen buffer)⟩

/-- The head segments the loop consumes, one per packet: the first
`currentStartCodeSize` bytes of the buffer at each extraction. -/
def consumedHeads : Nat → List Nat → List (List Nat)
  | 0, _ => []
  | fuel + 1, buffer =>
    if 4 ≤ buffer.length then
      if naluLen buffer = 0 then []
      else
        buffer.take (headSize buffer) ::
          consumedHeads fuel (buffer.drop (headSize buffer + naluLen buffer))
    else []

/-- Heads and payloads interleaved: `h_1 ++ p_1 ++ ... ++ h_n ++ p_n`, where
`p_k` is the data of the k-th packet without its first four bytes. -/
def reassemble : List (List Nat) → List DataPacket → List Nat
  | h :: hs, u :: us => h ++ u.data.drop 4 ++ reassemble hs us
  | _, _ => []

/-- A start code: `00 00 01` or `00 00 00 01`. -/
def isStartCode (h : List Nat) : Prop :=
  h = [0, 0, 1] ∨ h = [0, 0, 0, 1]

instance (h : List Nat) : Decidable (isStartCode h) := by
  unfold isStartCode; infer_instance

/-- The byte sequence begins with a start code. -/
def beginsWithStartCode (s : List Nat) : Prop :=
  [0, 0, 1] <+: s ∨ [0, 0, 0, 1] <+: s

instance (s : List Nat) : Decidable (beginsWithStartCode s) := by
  unfold beginsWithStartCode; infer_instance

/-- A payload of a well-formed stream: non-empty, with no `00 00 01` inside
and not ending in the byte `00`. -/
def wellFormedPayload (p : List Nat) : Prop :=
  p ≠ [] ∧ ¬ [0, 0, 1] <:+: p ∧ p.getLast? ≠ some 0

instance (p : List Nat) : Decidable (wellFormedPayload p) := by
  unfold wellFormedPayload; infer_instance

/-- The stream `sc_1 ++ p_1 ++ ... ++ sc_n ++ p_n` of a list of
(start code, payload) segments. -/
def streamOf : List (List Nat × List Nat) → List Nat
  | [] => []
  | s :: rest => s.1 ++ s.2 ++ streamOf rest

/-- The unit `processData` is to emit for a payload. -/
def unitOf (p : List Nat) : DataPacket :=
  ⟨1, 101, 0, [0, 0, 0, 1] ++ p⟩

/-- Notification of the manager's observer, made only when it is alive. -/
def notify (alive : Bool) (state : DeviceConnection.State) : List DeviceConnection.Effect :=
  if alive then [DeviceConnection.Effect.connectionDidChangeState state] else []

/-- The error number of the system call that fails during one
`create_socket` call past the address checks, if one fails: `socket`, else
`setsockopt`, else `connect`. -/
def SocketEnv.failure (os : SocketEnv) : Option Int :=
  if os.socketRet < 0 then some os.socketErrno
  else if os.setsockoptRet < 0 then some os.setsockoptErrno
  else if os.connectRet < 0 then some os.connectErrno
  else none

/-- The `create_socket` calls number `k` to `k + n - 1`, as effects. -/
def attemptEffects (inet_pton : String → Int) (host : String) (port : Int)
    (attempts : Nat → SocketEnv) : Nat → Nat → List DeviceConnection.Effect
  | _, 0 => []
  | k, n + 1 =>
    DeviceConnection.Effect.createSocket (create_socket inet_pton host port (attempts k)).1
        (create_socket inet_pton host port (attempts k)).2 ::
      attemptEffects inet_pton host port attempts (k + 1) n

/-- The channel `connect` leaves on success: built on the new descriptor,
observed by the manager, started. -/
def startedChannel (port socketHandle : Int) : Channel :=
  { port := port, conn := socketHandle, _state := Channel.State.Connecting, running := true,
    delegateAlive := true, threadJoinable := true }

/-- The effects of `Channel::close`: the worker is joined when the caller
is another thread and a worker exists, then the descriptor is closed. -/
def closeEffects (ch : Channel) (onInternalThread : Bool) : List Channel.Effect :=
  (if onInternalThread = false ∧ ch.threadJoinable = true then [Channel.Effect.threadJoin]
    else []) ++ [Channel.Effect.close ch.conn]

/-- The operations of the step relation of a channel. -/
inductive Channel.Op
  | start
  | close (onInternalThread : Bool) (closeRet : Int)
  | send (data : List Nat) (sendRet : Int)
  | worker (selects : List (Int × Int)) (recvRet errno closeRet : Int)

/-- One step of a channel: the object after `start()`, `close()`, `send()`
or one iteration of the worker loop; no result where the operation has none. -/
def Channel.step (self : Channel) : Channel.Op → Option Channel
  | Channel.Op.start => self.start.map (fun r => r.2.1)
  | Channel.Op.close t c => some (self.close t c).2.1
  | Channel.Op.send _ _ => some self
  | Channel.Op.worker s r e c => (self.InternalThreadEntry s r e c).map (fun r => r.1)

/-- A sequence of `processData` calls, one per chunk: the unit list each
call returns, and the framer after the last call. -/
def feedAll (self : SimpleDataPacketProtocol) :
    List (List Nat) → List (List DataPacket) × SimpleDataPacketProtocol
  | [] => ([], self)
  | c :: cs =>
    let r := self.processData c
    let rs := feedAll r.2 cs
    (r.1 :: rs.1, rs.2)

/-- The chunks of a sequence of calls, concatenated in order. -/
def allBytes : List (List Nat) → List Nat
  | [] => []
  | c :: cs => c ++ allBytes cs

/-! ## The scan -/

theorem headSize_cases (buffer : List Nat) : headSize buffer = 3 ∨ headSize buffer = 4 := by
  unfold headSize
  split <;> simp

theorem startCodeAt_append (buffer c : List Nat) (i : Nat) (h : i + 3 < buffer.length) :
    startCodeAt (buffer ++ c) i = startCodeAt buffer i := by
  unfold startCodeAt
  rw [List.getD_append _ _ _ _ (by omega), List.getD_append _ _ _ _ (by omega),
    List.getD_append _ _ _ _ (by omega), List.getD_append _ _ _ _ h]

theorem headSize_append (buffer c : List Nat) (h : 4 ≤ buffer.length) :
    headSize (buffer ++ c) = headSize buffer := by
  unfold headSize
  rw [List.getD_append _ _ _ _ (by omega)]

/-- A first match at `j` is what the scan returns, given enough fuel. -/
theorem scanLoop_found (buffer : List Nat) (css j : Nat) :
    ∀ (fuel i : Nat), i ≤ j → j + 3 < buffer.length → startCodeAt buffer j = true →
      (∀ k, i ≤ k → k < j → startCodeAt buffer k = false) → j - i < fuel →
      scanLoop buffer css fuel i = j - css := by
  intro fuel
  induction fuel with
  | zero => intro i _ _ _ _ hf; omega
  | succ f ih =>
    intro i hij hj hm hfirst hf
    rw [scanLoop, if_pos (by omega)]
    by_cases hi : i = j
    · subst hi; rw [if_pos hm]
    · have hlt : i < j := by omega
      rw [hfirst i (Nat.le_refl _) hlt]
      simp only [Bool.false_eq_true, if_false]
      exact ih (i + 1) (by omega) hj hm (fun k hk hkj => hfirst k (by omega) hkj) (by omega)

/-- With no match in range the scan leaves `naluLength` at 0. -/
theorem scanLoop_none (buffer : List Nat) (css : Nat) :
    ∀ (fuel i : Nat),
      (∀ k, i ≤ k → k + 3 < buffer.length → startCodeAt buffer k = false) →
      scanLoop buffer css fuel i = 0 := by
  intro fuel
  induction fuel with
  | zero => intro i _; rfl
  | succ f ih =>
    intro i hno
    rw [scanLoop]
    split
    · rename_i h
      rw [hno i (Nat.le_refl _) h]
      simp only [Bool.false_eq_true, if_false]
      exact ih (i + 1) (fun k hk hk3 => hno k (by omega) hk3)
    · rfl

/-- A non-zero scan result comes from a first match. -/
theorem scanLoop_inv (buffer : List Nat) (css : Nat) :
    ∀ (fuel i n : Nat), scanLoop buffer css fuel i = n → n ≠ 0 →
      ∃ j, i ≤ j ∧ j + 3 < buffer.length ∧ startCodeAt buffer j = true ∧
        (∀ k, i ≤ k → k < j → startCodeAt buffer k = false) ∧ n = j - css ∧ j - i < fuel := by
  intro fuel
  induction fuel with
  | zero => intro i n h hn; simp [scanLoop] at h; omega
  | succ f ih =>
    intro i n h hn
    rw [scanLoop] at h
    by_cases hlen : i + 3 < buffer.length
    · rw [if_pos hlen] at h
      by_cases hm : startCodeAt buffer i = true
      · rw [if_pos hm] at h
        exact ⟨i, Nat.le_refl _, hlen, hm, fun k hk hkj => by omega, h.symm, by omega⟩
      · rw [if_neg hm] at h
        obtain ⟨j, hij, hj, hmj, hfirst, hnj, hf⟩ := ih (i + 1) n h hn
        refine ⟨j, by omega, hj, hmj, ?_, hnj, by omega⟩
        intro k hk hkj
        by_cases hki : k = i
        · subst hki; simpa using hm
        · exact hfirst k (by omega) hkj
    · rw [if_neg hlen] at h; omega

/-- The fuel `processData` passes to the scan is enough: more changes nothing. -/
theorem scanLoop_fuel (buffer : List Nat) (css : Nat) :
    ∀ (fuel i : Nat), buffer.length ≤ i + fuel →
      scanLoop buffer css fuel i = scanLoop buffer css (fuel + 1) i := by
  intro fuel
  induction fuel with
  | zero =>
    intro i h
    rw [scanLoop, scanLoop, if_neg (by omega)]
  | succ f ih =>
    intro i h
    rw [scanLoop]
    conv_rhs => rw [scanLoop]
    split
    · split
      · rfl
      · exact ih (i + 1) (by omega)
    · rfl

/-- Appending bytes does not change a scan that found a start code. -/
theorem naluLen_append (buffer c : List Nat) (h4 : 4 ≤ buffer.length)
    (hn : naluLen buffer ≠ 0) : naluLen (buffer ++ c) = naluLen buffer := by
  unfold naluLen at hn ⊢
  rw [headSize_append buffer c h4]
  obtain ⟨j, hij, hj, hmj, hfirst, hnj, -⟩ := scanLoop_inv buffer _ _ _ _ rfl hn
  rw [hnj]
  apply scanLoop_found
  · exact hij
  · rw [List.length_append]; omega
  · rw [startCodeAt_append _ _ _ hj]; exact hmj
  · intro k hk hkj
    rw [startCodeAt_append _ _ _ (by omega)]
    exact hfirst k hk hkj
  · rw [List.length_append]; omega

theorem naluLen_bound (buffer : List Nat) (hn : naluLen buffer ≠ 0) :
    headSize buffer + naluLen buffer + 3 < buffer.length ∧
      startCodeAt buffer (headSize buffer + naluLen buffer) = true := by
  unfold naluLen at hn ⊢
  obtain ⟨j, hij, hj, hmj, -, hnj, -⟩ := scanLoop_inv buffer _ _ _ _ rfl hn
  rw [hnj]
  have : headSize buffer + (j - headSize buffer) = j := by omega
  rw [this]
  exact ⟨hj, hmj⟩

/-! ## The extraction loop and chunking invariance -/

/-- One iteration of the `while` loop, in terms of `headSize` and `naluLen`. -/
theorem processLoop_succ (fuel : Nat) (buffer : List Nat) :
    processLoop (fuel + 1) buffer =
      if 4 ≤ buffer.length then
        if naluLen buffer = 0 then ([], buffer)
        else
          (headPacket buffer ::
              (processLoop fuel (buffer.drop (headSize buffer + naluLen buffer))).1,
            (processLoop fuel (buffer.drop (headSize buffer + naluLen buffer))).2)
      else ([], buffer) := by
  rw [processLoop]
  by_cases h4 : 4 ≤ buffer.length
  · rw [if_pos h4, if_pos h4]
    by_cases hn : naluLen buffer = 0
    · rw [if_pos hn]
      have : (scanLoop buffer (if buffer.getD 2 0 == 1 then 3 else 4) buffer.length
          (if buffer.getD 2 0 == 1 then 3 else 4) == 0) = true := by
        simpa [naluLen, headSize] using hn
      simp only [this, if_true]
    · rw [if_neg hn]
      have : ¬ (scanLoop buffer (if buffer.getD 2 0 == 1 then 3 else 4) buffer.length
          (if buffer.getD 2 0 == 1 then 3 else 4) == 0) = true := by
        simpa [naluLen, headSize] using hn
      simp only [this, if_false]
      rfl
  · rw [if_neg h4, if_neg h4]

theorem processLoop_short (fuel : Nat) (buffer : List Nat) (h : buffer.length < 4) :
    processLoop fuel buffer = ([], buffer) := by
  cases fuel with
  | zero => rfl
  | succ f => rw [processLoop_succ, if_neg (by omega)]

theorem processLoop_stall (fuel : Nat) (buffer : List Nat) (h : naluLen buffer = 0) :
    processLoop fuel buffer = ([], buffer) := by
  cases fuel with
  | zero => rfl
  | succ f =>
    rw [processLoop_succ, if_pos h]
    split <;> rfl

theorem processLoop_step (fuel : Nat) (buffer : List Nat) (h4 : 4 ≤ buffer.length)
    (hn : naluLen buffer ≠ 0) :
    processLoop (fuel + 1) buffer =
      (headPacket buffer ::
          (processLoop fuel (buffer.drop (headSize buffer + naluLen buffer))).1,
        (processLoop fuel (buffer.drop (headSize buffer + naluLen buffer))).2) := by
  rw [processLoop_succ, if_pos h4, if_neg hn]

/-- The fuel `processData` passes to the loop is enough: any fuel of at
least the buffer length gives the same result. -/
theorem processLoop_fuel :
    ∀ (f1 f2 : Nat) (buffer : List Nat), buffer.length ≤ f1 → buffer.length ≤ f2 →
      processLoop f1 buffer = processLoop f2 buffer := by
  intro f1
  induction f1 with
  | zero =>
    intro f2 buffer h1 _
    rw [processLoop_short 0 buffer (by omega), processLoop_short f2 buffer (by omega)]
  | succ f ih =>
    intro f2 buffer h1 h2
    by_cases h4 : 4 ≤ buffer.length
    · by_cases hn : naluLen buffer = 0
      · rw [processLoop_stall _ _ hn, processLoop_stall _ _ hn]
      · obtain ⟨g, rfl⟩ : ∃ g, f2 = g + 1 := ⟨f2 - 1, by omega⟩
        rw [processLoop_step _ _ h4 hn, processLoop_step _ _ h4 hn]
        have hs := headSize_cases buffer
        have hlen : (buffer.drop (headSize buffer + naluLen buffer)).length ≤ f := by
          rw [List.length_drop]; omega
        have hlen2 : (buffer.drop (headSize buffer + naluLen buffer)).length ≤ g := by
          rw [List.length_drop]; omega
        rw [ih g _ hlen hlen2]
    · rw [processLoop_short _ buffer (by omega), processLoop_short f2 buffer (by omega)]

/-- The loop ends only where the source's loop ends: on the buffer it
leaves, either fewer than four bytes remain or the scan finds nothing. -/
theorem processLoop_final :
    ∀ (fuel : Nat) (buffer : List Nat), buffer.length ≤ fuel →
      (processLoop fuel buffer).2.length < 4 ∨ naluLen (processLoop fuel buffer).2 = 0 := by
  intro fuel
  induction fuel with
  | zero =>
    intro buffer h
    rw [processLoop_short 0 buffer (by omega)]
    left; show buffer.length < 4; omega
  | succ f ih =>
    intro buffer h
    by_cases h4 : 4 ≤ buffer.length
    · by_cases hn : naluLen buffer = 0
      · rw [processLoop_stall _ _ hn]; right; exact hn
      · rw [processLoop_step _ _ h4 hn]
        have hs := headSize_cases buffer
        exact ih _ (by rw [List.length_drop]; omega)
    · rw [processLoop_short _ buffer (by omega)]
      left; show buffer.length < 4; omega

/-- Bytes appended to the buffer do not disturb the units already
extractable: the loop on `buffer ++ c` emits what the loop on `buffer`
emits and then continues from what that loop left, with `c` appended. -/
theorem processLoop_append (c : List Nat) :
    ∀ (f : Nat) (buffer : List Nat) (F G : Nat), buffer.length ≤ f →
      (buffer ++ c).length ≤ F → ((processLoop f buffer).2 ++ c).length ≤ G →
      processLoop F (buffer ++ c) =
        ((processLoop f buffer).1 ++ (processLoop G ((processLoop f buffer).2 ++ c)).1,
          (processLoop G ((processLoop f buffer).2 ++ c)).2) := by
  intro f
  induction f with
  | zero =>
    intro buffer F G h hF hG
    rw [processLoop_short 0 buffer (by omega)] at hG ⊢
    simp only [List.nil_append]
    rw [processLoop_fuel F G _ hF hG]
  | succ f ih =>
    intro buffer F G h hF hG
    by_cases h4 : 4 ≤ buffer.length
    · by_cases hn : naluLen buffer = 0
      · rw [processLoop_stall _ _ hn] at hG ⊢
        simp only [List.nil_append]
        rw [processLoop_fuel F G _ hF hG]
      · rw [processLoop_step _ _ h4 hn] at hG ⊢
        simp only at hG ⊢
        have hs := headSize_cases buffer
        have hb := naluLen_bound buffer hn
        have hF' : 4 ≤ (buffer ++ c).length := by rw [List.length_append]; omega
        obtain ⟨F', rfl⟩ : ∃ g, F = g + 1 := ⟨F - 1, by omega⟩
        have hn' : naluLen (buffer ++ c) ≠ 0 := by rw [naluLen_append _ _ h4 hn]; exact hn
        rw [processLoop_step _ _ hF' hn']
        have hp : headPacket (buffer ++ c) = headPacket buffer := by
          unfold headPacket
          rw [naluLen_append _ _ h4 hn, headSize_append _ _ h4,
            List.drop_append_of_le_length (by omega),
            List.take_append_of_le_length (by rw [List.length_drop]; omega)]
        have hd : (buffer ++ c).drop (headSize (buffer ++ c) + naluLen (buffer ++ c)) =
            buffer.drop (headSize buffer + naluLen buffer) ++ c := by
          rw [naluLen_append _ _ h4 hn, headSize_append _ _ h4,
            List.drop_append_of_le_length (by omega)]
        rw [hp, hd]
        have hlen : (buffer.drop (headSize buffer + naluLen buffer)).length ≤ f := by
          rw [List.length_drop]; omega
        have hlenF : (buffer.drop (headSize buffer + naluLen buffer) ++ c).length ≤ F' := by
          rw [List.length_append, List.length_drop]
          rw [List.length_append] at hF
          omega
        rw [ih _ F' G hlen hlenF hG]
        simp only [List.cons_append]
    · rw [processLoop_short _ buffer (by omega)] at hG ⊢
      simp only [List.nil_append]
      rw [processLoop_fuel F G _ hF hG]

theorem buffer_append_guard (buffer data : List Nat) :
    (if data.length > 0 then buffer ++ data else buffer) = buffer ++ data := by
  cases data with
  | nil => simp
  | cons a t => simp

theorem processData_eq (self : SimpleDataPacketProtocol) (data : List Nat) :
    self.processData data =
      ((processLoop (self.buffer ++ data).length (self.buffer ++ data)).1,
        ⟨(processLoop (self.buffer ++ data).length (self.buffer ++ data)).2⟩) := by
  unfold SimpleDataPacketProtocol.processData
  simp only [buffer_append_guard]

/-- C1. Chunking invariance of `processData`: from any accumulator `b`,
feeding `c1` and then `c2` returns unit lists whose concatenation is the
unit list returned by feeding `c1 ++ c2` at once, and both runs leave the
same accumulator. -/
theorem processData_chunking (b c1 c2 : List Nat) :
    ((SimpleDataPacketProtocol.mk b).processData c1).1 ++
        (((SimpleDataPacketProtocol.mk b).processData c1).2.processData c2).1 =
      ((SimpleDataPacketProtocol.mk b).processData (c1 ++ c2)).1 ∧
    (((SimpleDataPacketProtocol.mk b).processData c1).2.processData c2).2 =
      ((SimpleDataPacketProtocol.mk b).processData (c1 ++ c2)).2 := by
  simp only [processData_eq]
  have h := processLoop_append c2 (b ++ c1).length (b ++ c1) (b ++ (c1 ++ c2)).length
    ((processLoop (b ++ c1).length (b ++ c1)).2 ++ c2).length (Nat.le_refl _)
    (by simp [List.append_assoc]) (Nat.le_refl _)
  rw [List.append_assoc] at h
  rw [h]
  exact ⟨rfl, rfl⟩

/-! ## No byte loss -/

theorem startCodeAt_drop (buffer : List Nat) (i : Nat) :
    startCodeAt (buffer.drop i) 0 = startCodeAt buffer i := by
  unfold startCodeAt
  simp [List.getElem?_drop]

theorem begins_of_startCodeAt (s : List Nat) (h : startCodeAt s 0 = true)
    (hlen : 3 < s.length) : beginsWithStartCode s := by
  match s, hlen with
  | a :: b :: c :: d :: t, _ =>
    simp only [startCodeAt, List.getD_cons_zero, List.getD_cons_succ, Bool.and_eq_true,
      Bool.or_eq_true, beq_iff_eq] at h
    obtain ⟨⟨ha, hb⟩, hc⟩ := h
    subst ha; subst hb
    rcases hc with hc | ⟨hc, hd⟩
    · subst hc; left; exact ⟨d :: t, rfl⟩
    · subst hc; subst hd; right; exact ⟨t, rfl⟩

theorem head_of_begins (s : List Nat) (h : beginsWithStartCode s) :
    isStartCode (s.take (headSize s)) := by
  rcases h with ⟨t, rfl⟩ | ⟨t, rfl⟩
  · left; simp [headSize]
  · right; simp [headSize]

theorem consumedHeads_spec :
    ∀ (fuel : Nat) (buffer : List Nat), buffer.length ≤ fuel →
      (consumedHeads fuel buffer).length = (processLoop fuel buffer).1.length ∧
      (∀ h ∈ consumedHeads fuel buffer, h.length = 3 ∨ h.length = 4) ∧
      reassemble (consumedHeads fuel buffer) (processLoop fuel buffer).1 ++
          (processLoop fuel buffer).2 = buffer ∧
      (beginsWithStartCode buffer → ∀ h ∈ consumedHeads fuel buffer, isStartCode h) := by
  intro fuel
  induction fuel with
  | zero =>
    intro buffer _
    simp [consumedHeads, processLoop, reassemble]
  | succ f ih =>
    intro buffer hf
    by_cases h4 : 4 ≤ buffer.length
    · by_cases hn : naluLen buffer = 0
      · rw [processLoop_stall _ _ hn]
        simp [consumedHeads, hn, reassemble]
      · rw [processLoop_step _ _ h4 hn]
        have hs := headSize_cases buffer
        have hb := naluLen_bound buffer hn
        have hlen : (buffer.drop (headSize buffer + naluLen buffer)).length ≤ f := by
          rw [List.length_drop]; omega
        obtain ⟨ih1, ih2, ih3, ih4⟩ := ih _ hlen
        have hc : consumedHeads (f + 1) buffer =
            buffer.take (headSize buffer) ::
              consumedHeads f (buffer.drop (headSize buffer + naluLen buffer)) := by
          rw [consumedHeads, if_pos h4, if_neg hn]
        rw [hc]
        refine ⟨by simp [ih1], ?_, ?_, ?_⟩
        · intro h hh
          rcases List.mem_cons.mp hh with rfl | hh
          · rw [List.length_take]; omega
          · exact ih2 h hh
        · simp only [reassemble, headPacket, List.append_assoc]
          rw [ih3]
          have h4d : ([0, 0, 0, 1] ++ (buffer.drop (headSize buffer)).take (naluLen buffer)).drop 4
              = (buffer.drop (headSize buffer)).take (naluLen buffer) := rfl
          rw [h4d, ← List.drop_drop, List.take_append_drop, List.take_append_drop]
        · intro hbeg h hh
          rcases List.mem_cons.mp hh with rfl | hh
          · exact head_of_begins buffer hbeg
          · refine ih4 ?_ h hh
            apply begins_of_startCodeAt
            · rw [startCodeAt_drop]; exact hb.2
            · rw [List.length_drop]; omega
    · rw [processLoop_short _ buffer (by omega)]
      simp [consumedHeads, h4, reassemble]

/-- C3. No byte loss in `processData`: for every accumulator `b` and chunk
`c` there are consumed head segments, one per returned unit and each of
length 3 or 4, such that heads and payloads (unit data without its first 4
bytes) interleaved, followed by the accumulator left, give back `b ++ c`;
and when `b ++ c` begins with a start code every head is a start code. -/
theorem processData_no_byte_loss (b c : List Nat) :
    ∃ hs : List (List Nat),
      hs.length = ((SimpleDataPacketProtocol.mk b).processData c).1.length ∧
      (∀ h ∈ hs, h.length = 3 ∨ h.length = 4) ∧
      reassemble hs ((SimpleDataPacketProtocol.mk b).processData c).1 ++
          ((SimpleDataPacketProtocol.mk b).processData c).2.buffer = b ++ c ∧
      (beginsWithStartCode (b ++ c) → ∀ h ∈ hs, isStartCode h) := by
  rw [processData_eq]
  exact ⟨consumedHeads (b ++ c).length (b ++ c),
    consumedHeads_spec (b ++ c).length (b ++ c) (Nat.le_refl _)⟩

/-- An instance of C3: the accumulator `00 00 00 01 AA` followed by the
chunk `BB 00 00 01 CC DD EE 00 00 00 01 FF` begins with a start code. -/
theorem processData_no_byte_loss_witness :
    beginsWithStartCode
        ([0, 0, 0, 1, 0xAA] ++ [0xBB, 0, 0, 1, 0xCC, 0xDD, 0xEE, 0, 0, 0, 1, 0xFF]) ∧
    ∃ hs : List (List Nat),
      hs.length = ((SimpleDataPacketProtocol.mk [0, 0, 0, 1, 0xAA]).processData
        [0xBB, 0, 0, 1, 0xCC, 0xDD, 0xEE, 0, 0, 0, 1, 0xFF]).1.length ∧
      (∀ h ∈ hs, h.length = 3 ∨ h.length = 4) ∧
      reassemble hs ((SimpleDataPacketProtocol.mk [0, 0, 0, 1, 0xAA]).processData
          [0xBB, 0, 0, 1, 0xCC, 0xDD, 0xEE, 0, 0, 0, 1, 0xFF]).1 ++
        ((SimpleDataPacketProtocol.mk [0, 0, 0, 1, 0xAA]).processData
          [0xBB, 0, 0, 1, 0xCC, 0xDD, 0xEE, 0, 0, 0, 1, 0xFF]).2.buffer =
        [0, 0, 0, 1, 0xAA] ++ [0xBB, 0, 0, 1, 0xCC, 0xDD, 0xEE, 0, 0, 0, 1, 0xFF] ∧
      (beginsWithStartCode
          ([0, 0, 0, 1, 0xAA] ++ [0xBB, 0, 0, 1, 0xCC, 0xDD, 0xEE, 0, 0, 0, 1, 0xFF]) →
        ∀ h ∈ hs, isStartCode h) :=
  ⟨by decide,
    processData_no_byte_loss [0, 0, 0, 1, 0xAA]
      [0xBB, 0, 0, 1, 0xCC, 0xDD, 0xEE, 0, 0, 0, 1, 0xFF]⟩

/-! ## Reference framing -/

theorem seq001_of_getD :
    ∀ (p : List Nat) (j : Nat), j + 2 < p.length → p.getD j 0 = 0 → p.getD (j + 1) 0 = 0 →
      p.getD (j + 2) 0 = 1 → [0, 0, 1] <:+: p := by
  intro p
  induction p with
  | nil => intro j h; simp at h
  | cons a t ih =>
    intro j h h0 h1 h2
    cases j with
    | zero =>
      match t, h with
      | b :: c :: u, _ =>
        simp only [List.getD_cons_zero, List.getD_cons_succ, Nat.zero_add] at h0 h1 h2
        subst h0; subst h1; subst h2
        exact ⟨[], u, rfl⟩
    | succ k =>
      have h0' : t.getD k 0 = 0 := by simpa [List.getD_cons_succ] using h0
      have h1' : t.getD (k + 1) 0 = 0 := by
        have : k + 1 + 1 = (k + 1) + 1 := rfl
        rw [this, List.getD_cons_succ] at h1; exact h1
      have h2' : t.getD (k + 2) 0 = 1 := by
        have : k + 1 + 2 = (k + 2) + 1 := by omega
        rw [this, List.getD_cons_succ] at h2; exact h2
      obtain ⟨s, u, hsu⟩ := ih k (by simp at h; omega) h0' h1' h2'
      exact ⟨a :: s, u, by simp [← hsu]⟩

theorem last_getD (p : List Nat) (hp : wellFormedPayload p) :
    p.getD (p.length - 1) 0 ≠ 0 := by
  obtain ⟨hne, -, hlast⟩ := hp
  have hpos : 0 < p.length := List.length_pos.mpr hne
  rw [List.getLast?_eq_getElem?] at hlast
  rw [List.getD_eq_getElem _ _ (by omega)]
  rw [List.getElem?_eq_getElem (by omega)] at hlast
  intro h
  exact hlast (by rw [h])

/-- Inside a well-formed payload the scan condition holds nowhere, whatever
bytes follow the payload. -/
theorem payload_no_match (p t : List Nat) (hp : wellFormedPayload p) (m : Nat)
    (hm : m < p.length) : startCodeAt (p ++ t) m = false := by
  have hlast := last_getD p hp
  have hno := hp.2.1
  by_contra hc
  have hc : startCodeAt (p ++ t) m = true := by simpa using hc
  simp only [startCodeAt, Bool.and_eq_true, Bool.or_eq_true, beq_iff_eq] at hc
  obtain ⟨⟨h0, h1⟩, h2⟩ := hc
  rw [List.getD_append _ _ _ _ hm] at h0
  have hm1 : m + 1 < p.length := by
    by_contra hh
    have : m = p.length - 1 := by omega
    rw [this] at h0
    exact hlast h0
  rw [List.getD_append _ _ _ _ hm1] at h1
  have hm2 : m + 2 < p.length := by
    by_contra hh
    have : m + 1 = p.length - 1 := by omega
    rw [this] at h1
    exact hlast h1
  rw [List.getD_append _ _ _ _ hm2] at h2
  rcases h2 with h2 | ⟨h2, h3⟩
  · exact hno (seq001_of_getD p m hm2 h0 h1 h2)
  · have hm3 : m + 3 < p.length := by
      by_contra hh
      have : m + 2 = p.length - 1 := by omega
      rw [this] at h2
      exact hlast h2
    rw [List.getD_append _ _ _ _ hm3] at h3
    exact hno (seq001_of_getD p (m + 1) (by omega) h1 h2 h3)

theorem startCodeAt_append_right (a b : List Nat) (m : Nat) :
    startCodeAt (a ++ b) (a.length + m) = startCodeAt b m := by
  rw [← startCodeAt_drop (a ++ b), ← startCodeAt_drop b m, List.drop_append]

theorem headSize_startCode (sc rest : List Nat) (hsc : isStartCode sc) :
    headSize (sc ++ rest) = sc.length := by
  rcases hsc with rfl | rfl <;> simp [headSize]

theorem startCodeAt_startCode (sc p rest : List Nat) (hsc : isStartCode sc) (hp : p ≠ []) :
    startCodeAt (sc ++ p ++ rest) 0 = true ∧ 4 ≤ (sc ++ p ++ rest).length := by
  obtain ⟨x, u, rfl⟩ := List.exists_cons_of_ne_nil hp
  rcases hsc with rfl | rfl
  · constructor
    · simp [startCodeAt]
    · simp
  · constructor
    · simp [startCodeAt]
    · simp

/-- The last segment of a stream stays in the buffer: the scan finds
nothing in it. -/
theorem naluLen_last (sc p : List Nat) (hsc : isStartCode sc) (hp : wellFormedPayload p) :
    naluLen (sc ++ p) = 0 := by
  unfold naluLen
  rw [headSize_startCode sc p hsc]
  apply scanLoop_none
  intro k hk hk3
  obtain ⟨m, rfl⟩ : ∃ m, k = sc.length + m := ⟨k - sc.length, by omega⟩
  rw [startCodeAt_append_right]
  have := payload_no_match p [] hp m (by rw [List.length_append] at hk3; omega)
  simpa using this

/-- A segment followed by a start code and at least one more byte is found
by the scan, with `naluLength` the length of its payload. -/
theorem naluLen_segment (sc p t : List Nat) (hsc : isStartCode sc)
    (hp : wellFormedPayload p) (ht : startCodeAt t 0 = true) (ht4 : 4 ≤ t.length) :
    naluLen (sc ++ p ++ t) = p.length := by
  unfold naluLen
  rw [List.append_assoc, headSize_startCode sc (p ++ t) hsc]
  have hfound := scanLoop_found (sc ++ (p ++ t)) sc.length (sc.length + p.length)
    (sc ++ (p ++ t)).length sc.length (by omega)
    (by simp only [List.length_append]; omega)
    (by
      rw [← List.append_assoc, ← List.length_append]
      have := startCodeAt_append_right (sc ++ p) t 0
      rw [Nat.add_zero] at this
      rw [this]; exact ht)
    (by
      intro k hk hkj
      obtain ⟨m, rfl⟩ : ∃ m, k = sc.length + m := ⟨k - sc.length, by omega⟩
      rw [startCodeAt_append_right]
      exact payload_no_match p t hp m (by omega))
    (by simp only [List.length_append]; omega)
  rw [hfound]
  omega

theorem streamOf_cons (s : List Nat × List Nat) (rest : List (List Nat × List Nat)) :
    streamOf (s :: rest) = s.1 ++ s.2 ++ streamOf rest := rfl

theorem streamOf_snoc_head (segs : List (List Nat × List Nat)) (last : List Nat × List Nat)
    (hsc : ∀ s ∈ segs ++ [last], isStartCode s.1)
    (hp : ∀ s ∈ segs ++ [last], wellFormedPayload s.2) :
    startCodeAt (streamOf (segs ++ [last])) 0 = true ∧ 4 ≤ (streamOf (segs ++ [last])).length := by
  cases segs with
  | nil =>
    rw [List.nil_append, streamOf_cons]
    exact startCodeAt_startCode _ _ _ (hsc last (by simp)) (hp last (by simp)).1
  | cons s rest =>
    rw [List.cons_append, streamOf_cons]
    exact startCodeAt_startCode _ _ _ (hsc s (by simp)) (hp s (by simp)).1

/-- The loop on a well-formed stream: one unit per segment but the last,
which stays in the buffer. -/
theorem processLoop_stream :
    ∀ (segs : List (List Nat × List Nat)) (last : List Nat × List Nat) (fuel : Nat),
      (∀ s ∈ segs ++ [last], isStartCode s.1) →
      (∀ s ∈ segs ++ [last], wellFormedPayload s.2) →
      (streamOf (segs ++ [last])).length ≤ fuel →
      processLoop fuel (streamOf (segs ++ [last])) =
        (segs.map (fun s => unitOf s.2), last.1 ++ last.2) := by
  intro segs
  induction segs with
  | nil =>
    intro last fuel hsc hp _
    rw [List.nil_append, streamOf_cons]
    simp only [streamOf, List.append_nil, List.map_nil]
    exact processLoop_stall _ _ (naluLen_last _ _ (hsc last (by simp)) (hp last (by simp)))
  | cons s rest ih =>
    intro last fuel hsc hp hf
    have hsc' : ∀ x ∈ rest ++ [last], isStartCode x.1 :=
      fun x hx => hsc x (by simp only [List.cons_append, List.mem_cons]; exact Or.inr hx)
    have hp' : ∀ x ∈ rest ++ [last], wellFormedPayload x.2 :=
      fun x hx => hp x (by simp only [List.cons_append, List.mem_cons]; exact Or.inr hx)
    have hs1 : isStartCode s.1 := hsc s (by simp)
    have hs2 : wellFormedPayload s.2 := hp s (by simp)
    obtain ⟨ht, ht4⟩ := streamOf_snoc_head rest last hsc' hp'
    rw [List.cons_append, streamOf_cons] at hf ⊢
    have hn := naluLen_segment s.1 s.2 _ hs1 hs2 ht ht4
    have hpos : 0 < s.2.length := List.length_pos.mpr hs2.1
    have hlen1 : s.1.length = 3 ∨ s.1.length = 4 := by
      rcases hs1 with h | h <;> rw [h] <;> simp
    have h4 : 4 ≤ (s.1 ++ s.2 ++ streamOf (rest ++ [last])).length := by
      simp only [List.length_append]; omega
    obtain ⟨g, rfl⟩ : ∃ g, fuel = g + 1 := ⟨fuel - 1, by omega⟩
    rw [processLoop_step _ _ h4 (by rw [hn]; omega)]
    have hh : headSize (s.1 ++ s.2 ++ streamOf (rest ++ [last])) = s.1.length := by
      rw [List.append_assoc]; exact headSize_startCode _ _ hs1
    have hpk : headPacket (s.1 ++ s.2 ++ streamOf (rest ++ [last])) = unitOf s.2 := by
      unfold headPacket unitOf
      rw [hn, hh, List.append_assoc, List.drop_left, List.take_left]
    have hd : (s.1 ++ s.2 ++ streamOf (rest ++ [last])).drop
        (headSize (s.1 ++ s.2 ++ streamOf (rest ++ [last])) +
          naluLen (s.1 ++ s.2 ++ streamOf (rest ++ [last]))) = streamOf (rest ++ [last]) := by
      rw [hn, hh, ← List.length_append, List.drop_left]
    rw [hpk, hd, ih last g hsc' hp' (by simp only [List.length_append] at hf; omega)]
    simp

/-- C2. Reference framing of a well-formed stream: for segments
`(sc_1, p_1) .. (sc_n, p_n)`, `n ≥ 1` (here `segs ++ [last]`), every `sc_k` a
3- or 4-byte start code and every `p_k` non-empty, free of `00 00 01` and not
ending in `00`, one `processData` call on a fresh or freshly reset framer
returns the units of `p_1 .. p_(n-1)` in order, each with data
`00 00 00 01 ++ p_k`, version 1, type 101, tag 0, and leaves `sc_n ++ p_n`
in the accumulator. -/
theorem processData_reference_framing (segs : List (List Nat × List Nat))
    (last : List Nat × List Nat)
    (hsc : ∀ s ∈ segs ++ [last], s.1 = [0, 0, 1] ∨ s.1 = [0, 0, 0, 1])
    (hp : ∀ s ∈ segs ++ [last], s.2 ≠ [] ∧ ¬ [0, 0, 1] <:+: s.2 ∧ s.2.getLast? ≠ some 0) :
    SimpleDataPacketProtocol.new.processData (streamOf (segs ++ [last])) =
        (segs.map (fun s => (⟨1, 101, 0, [0, 0, 0, 1] ++ s.2⟩ : DataPacket)),
          ⟨last.1 ++ last.2⟩) ∧
      ∀ self : SimpleDataPacketProtocol,
        self.reset.processData (streamOf (segs ++ [last])) =
          (segs.map (fun s => (⟨1, 101, 0, [0, 0, 0, 1] ++ s.2⟩ : DataPacket)),
            ⟨last.1 ++ last.2⟩) := by
  have h := processLoop_stream segs last (streamOf (segs ++ [last])).length hsc hp
    (Nat.le_refl _)
  have key : (SimpleDataPacketProtocol.mk []).processData (streamOf (segs ++ [last])) =
      (segs.map (fun s => (⟨1, 101, 0, [0, 0, 0, 1] ++ s.2⟩ : DataPacket)),
        ⟨last.1 ++ last.2⟩) := by
    rw [processData_eq]
    simp only [List.nil_append]
    rw [h]
    rfl
  exact ⟨key, fun _ => key⟩

/-- The spec's Example 1 as an instance of C2: the stream
`00 00 00 01 AA BB 00 00 01 CC DD EE 00 00 00 01 FF` yields the units of
`AA BB` and `CC DD EE` and retains `00 00 00 01 FF`. -/
theorem processData_reference_framing_witness :
    SimpleDataPacketProtocol.new.processData
        [0, 0, 0, 1, 0xAA, 0xBB, 0, 0, 1, 0xCC, 0xDD, 0xEE, 0, 0, 0, 1, 0xFF] =
      ([⟨1, 101, 0, [0, 0, 0, 1, 0xAA, 0xBB]⟩, ⟨1, 101, 0, [0, 0, 0, 1, 0xCC, 0xDD, 0xEE]⟩],
        ⟨[0, 0, 0, 1, 0xFF]⟩) :=
  (processData_reference_framing
    [([0, 0, 0, 1], [0xAA, 0xBB]), ([0, 0, 1], [0xCC, 0xDD, 0xEE])] ([0, 0, 0, 1], [0xFF])
    (by decide) (by decide)).1

/-! ## DeviceConnection: connect -/

theorem DeviceConnection.setState_ne (dc : DeviceConnection) (st : DeviceConnection.State)
    (h : dc._state ≠ st) :
    dc.setState st = ({ dc with _state := st }, notify dc.delegateAlive st) := by
  unfold DeviceConnection.setState DeviceConnection.getState notify
  rw [if_neg h]

theorem create_socket_invalid (inet_pton : String → Int) (host : String) (port : Int)
    (os : SocketEnv) (hbad : port < 1 ∨ 65535 < port ∨ inet_pton host ≤ 0) :
    create_socket inet_pton host port os = (-EINVAL, []) := by
  unfold create_socket
  by_cases hp : (port < 1 || port > 65535) = true
  · rw [if_pos hp]
  · rw [if_neg hp]
    have hh : inet_pton host ≤ 0 := by
      rcases hbad with h | h | h
      · exact absurd (by simp [h]) hp
      · exact absurd (by simp [h]) hp
      · exact h
    rw [if_pos hh]

/-- C4. Non-retryable address errors: for a port outside [1, 65535] or a
host `inet_pton` rejects, `create_socket` returns `-EINVAL` and makes no
system call; and `connect()` called in a state other than `Connecting`, the
first deadline check passing, calls `create_socket` once, leaves `channel`
as it was, ends in `ImpossibleToConnect` and notifies a live observer of
`Connecting` and then `ImpossibleToConnect`, of nothing else. -/
theorem connect_address_error (dc : DeviceConnection) (inet_pton : String → Int)
    (t0 t1 : Nat) (clock : List Nat) (attempts : Nat → SocketEnv) (onInternalThread : Bool)
    (hbad : dc.port < 1 ∨ 65535 < dc.port ∨ inet_pton dc.host ≤ 0)
    (hstate : dc._state ≠ DeviceConnection.State.Connecting)
    (hdeadline : t1 < t0 + 200) :
    (∀ os, create_socket inet_pton dc.host dc.port os = (-EINVAL, [])) ∧
    dc.connect inet_pton (t0 :: t1 :: clock) attempts onInternalThread =
      some (true, { dc with _state := DeviceConnection.State.ImpossibleToConnect },
        notify dc.delegateAlive DeviceConnection.State.Connecting ++
          DeviceConnection.Effect.createSocket (-EINVAL) [] ::
            notify dc.delegateAlive DeviceConnection.State.ImpossibleToConnect) := by
  refine ⟨fun os => create_socket_invalid inet_pton dc.host dc.port os hbad, ?_⟩
  unfold DeviceConnection.connect
  simp only [DeviceConnection.getState]
  rw [if_neg hstate, DeviceConnection.setState_ne dc _ hstate]
  simp only [DeviceConnection.connectLoop]
  rw [if_pos hdeadline]
  rw [create_socket_invalid inet_pton dc.host dc.port _ hbad]
  have hneg : ¬ (-EINVAL ≥ 0) := by decide
  simp only [hneg, if_false, if_true]
  rw [DeviceConnection.setState_ne _ _ (by simp)]

/-- An instance of C4 for the spec's Example 3, the literal `999.1.1.1`,
with an `inet_pton` that accepts only `127.0.0.1`. -/
theorem connect_address_error_witness :
    (∀ os, create_socket (fun h => if h = "127.0.0.1" then 1 else 0) "999.1.1.1" 2019 os =
        (-EINVAL, [])) ∧
    (DeviceConnection.mk "999.1.1.1" 2019 DeviceConnection.State.Disconnected none true).connect
        (fun h => if h = "127.0.0.1" then 1 else 0) [1000, 1001, 1300]
        (fun _ => ⟨3, 0, 0, 0, 0, 0⟩) false =
      some (true,
        DeviceConnection.mk "999.1.1.1" 2019 DeviceConnection.State.ImpossibleToConnect none true,
        [DeviceConnection.Effect.connectionDidChangeState DeviceConnection.State.Connecting,
          DeviceConnection.Effect.createSocket (-EINVAL) [],
          DeviceConnection.Effect.connectionDidChangeState
            DeviceConnection.State.ImpossibleToConnect]) :=
  connect_address_error
    (DeviceConnection.mk "999.1.1.1" 2019 DeviceConnection.State.Disconnected none true)
    (fun h => if h = "127.0.0.1" then 1 else 0) 1000 1001 [1300] (fun _ => ⟨3, 0, 0, 0, 0, 0⟩)
    false (by decide) (by decide) (by decide)

theorem create_socket_failure (inet_pton : String → Int) (host : String) (port : Int)
    (os : SocketEnv) (e : Int) (hport : 1 ≤ port ∧ port ≤ 65535) (hhost : 0 < inet_pton host)
    (hf : os.failure = some e) : (create_socket inet_pton host port os).1 = -e := by
  unfold create_socket
  have hp : ¬ (port < 1 || port > 65535) = true := by
    simp only [Bool.or_eq_true, decide_eq_true_eq]; omega
  rw [if_neg hp, if_neg (by omega)]
  unfold SocketEnv.failure at hf
  by_cases h1 : os.socketRet < 0
  · rw [if_pos h1] at hf
    simp only [h1, if_true]
    exact congrArg Neg.neg (Option.some.inj hf)
  · rw [if_neg h1] at hf
    simp only [h1, if_false]
    by_cases h2 : os.setsockoptRet < 0
    · rw [if_pos h2] at hf
      simp only [h2, if_true]
      exact congrArg Neg.neg (Option.some.inj hf)
    · rw [if_neg h2] at hf
      simp only [h2, if_false]
      by_cases h3 : os.connectRet < 0
      · rw [if_pos h3] at hf
        simp only [h3, if_true]
        exact congrArg Neg.neg (Option.some.inj hf)
      · rw [if_neg h3] at hf
        exact absurd hf (by simp)

/-- While the attempts fail with an error number other than `EINVAL` and
the clock reads before the deadline, the loop of `connect` goes on: one
attempt is made per reading, and the loop continues with the next reading. -/
theorem connectLoop_retries (inet_pton : String → Int) (deadline : Nat)
    (attempts : Nat → SocketEnv) (onInternalThread : Bool) (dc : DeviceConnection)
    (rest : List Nat)
    (hport : 1 ≤ dc.port ∧ dc.port ≤ 65535) (hhost : 0 < inet_pton dc.host) :
    ∀ (pre : List Nat) (k : Nat), (∀ t ∈ pre, t < deadline) →
      (∀ j, j < pre.length → ∃ e, (attempts (k + j)).failure = some e ∧ 0 < e ∧ e ≠ EINVAL) →
      DeviceConnection.connectLoop inet_pton deadline attempts onInternalThread dc
          (pre ++ rest) k =
        (DeviceConnection.connectLoop inet_pton deadline attempts onInternalThread dc rest
            (k + pre.length)).map
          (fun r => (r.1, r.2.1,
            attemptEffects inet_pton dc.host dc.port attempts k pre.length ++ r.2.2)) := by
  intro pre
  induction pre with
  | nil =>
    intro k _ _
    simp only [List.nil_append, List.length_nil, attemptEffects, Nat.add_zero]
    cases DeviceConnection.connectLoop inet_pton deadline attempts onInternalThread dc rest k <;>
      rfl
  | cons t pre ih =>
    intro k hpre hfail
    obtain ⟨e, he, hpos, hne⟩ := hfail 0 (by simp)
    have hr := create_socket_failure inet_pton dc.host dc.port (attempts k) e hport hhost he
    rw [List.cons_append, DeviceConnection.connectLoop, List.length_cons, attemptEffects]
    simp only
    rw [if_pos (hpre t (by simp)), hr]
    rw [if_neg (by omega), if_neg (by intro h; exact hne (neg_injective h))]
    rw [ih (k + 1) (fun x hx => hpre x (by simp [hx]))
      (fun j hj => by
        have := hfail (j + 1) (by simp; omega)
        rwa [show k + (j + 1) = k + 1 + j by omega] at this)]
    rw [show k + 1 + pre.length = k + (pre.length + 1) by omega]
    cases DeviceConnection.connectLoop inet_pton deadline attempts onInternalThread dc rest
      (k + (pre.length + 1)) with
    | none => rfl
    | some r => simp only [Option.map_some', List.cons_append, hr]

theorem attemptEffects_succ (inet_pton : String → Int) (host : String) (port : Int)
    (attempts : Nat → SocketEnv) :
    ∀ n k, attemptEffects inet_pton host port attempts k (n + 1) =
      attemptEffects inet_pton host port attempts k n ++
        [DeviceConnection.Effect.createSocket
          (create_socket inet_pton host port (attempts (k + n))).1
          (create_socket inet_pton host port (attempts (k + n))).2] := by
  intro n
  induction n with
  | zero => intro k; simp [attemptEffects]
  | succ n ih =>
    intro k
    rw [attemptEffects, ih (k + 1), attemptEffects]
    rw [show k + 1 + n = k + (n + 1) by omega]
    rfl

theorem create_socket_success (inet_pton : String → Int) (host : String) (port : Int)
    (os : SocketEnv) (hport : 1 ≤ port ∧ port ≤ 65535) (hhost : 0 < inet_pton host)
    (hok : os.failure = none) :
    create_socket inet_pton host port os =
        (os.socketRet,
          [Syscall.socket, Syscall.setsockopt os.socketRet, Syscall.connect os.socketRet]) ∧
      0 ≤ os.socketRet := by
  have hp : ¬ (port < 1 || port > 65535) = true := by
    simp only [Bool.or_eq_true, decide_eq_true_eq]; omega
  unfold SocketEnv.failure at hok
  have h1 : ¬ os.socketRet < 0 := by
    intro h; rw [if_pos h] at hok; exact absurd hok (by simp)
  rw [if_neg h1] at hok
  have h2 : ¬ os.setsockoptRet < 0 := by
    intro h; rw [if_pos h] at hok; exact absurd hok (by simp)
  rw [if_neg h2] at hok
  have h3 : ¬ os.connectRet < 0 := by
    intro h; rw [if_pos h] at hok; exact absurd hok (by simp)
  refine ⟨?_, by omega⟩
  unfold create_socket
  rw [if_neg hp, if_neg (by omega)]
  simp only [h1, h2, h3, if_false]

/-- C5, as the code has it. For a port in [1, 65535] and a host `inet_pton`
accepts, `connect()` called in a state other than `Connecting` retries
every attempt that fails (in `socket`, `setsockopt` or `connect`) with a
positive error number other than `EINVAL`: after `pre.length` such failures
at clock readings before the deadline it reads the clock again. If that
reading is at or past the deadline it sets `FailedToConnect`, having set
`ImpossibleToConnect` at no point. If that reading is before the deadline
and the attempt made then fails with error number `EINVAL`, it sets
`ImpossibleToConnect` and returns. If that reading is before the deadline
and the attempt succeeds, then, provided the release of the channel it
owned has a result (`rel`, its effects; there is none on that channel's
worker thread), it starts a channel on the new descriptor and stays
`Connecting`, setting neither `FailedToConnect` nor `ImpossibleToConnect`. -/
theorem connect_retries (dc : DeviceConnection) (inet_pton : String → Int) (t0 : Nat)
    (pre : List Nat) (tNext : Nat) (rest : List Nat) (attempts : Nat → SocketEnv)
    (onInternalThread : Bool)
    (hport : 1 ≤ dc.port ∧ dc.port ≤ 65535) (hhost : 0 < inet_pton dc.host)
    (hstate : dc._state ≠ DeviceConnection.State.Connecting)
    (hfail : ∀ j, j < pre.length →
      ∃ e, (attempts j).failure = some e ∧ 0 < e ∧ e ≠ EINVAL)
    (hpre : ∀ t ∈ pre, t < t0 + 200) :
    (t0 + 200 ≤ tNext →
      dc.connect inet_pton (t0 :: (pre ++ tNext :: rest)) attempts onInternalThread =
        some (true, { dc with _state := DeviceConnection.State.FailedToConnect },
          notify dc.delegateAlive DeviceConnection.State.Connecting ++
            (attemptEffects inet_pton dc.host dc.port attempts 0 pre.length ++
              notify dc.delegateAlive DeviceConnection.State.FailedToConnect))) ∧
    (tNext < t0 + 200 → (attempts pre.length).failure = some EINVAL →
      dc.connect inet_pton (t0 :: (pre ++ tNext :: rest)) attempts onInternalThread =
        some (true, { dc with _state := DeviceConnection.State.ImpossibleToConnect },
          notify dc.delegateAlive DeviceConnection.State.Connecting ++
            (attemptEffects inet_pton dc.host dc.port attempts 0 (pre.length + 1) ++
              notify dc.delegateAlive DeviceConnection.State.ImpossibleToConnect))) ∧
    (∀ rel, tNext < t0 + 200 → (attempts pre.length).failure = none →
      releaseChannel dc.channel onInternalThread = some rel →
      dc.connect inet_pton (t0 :: (pre ++ tNext :: rest)) attempts onInternalThread =
        some (false,
          { dc with
            _state := DeviceConnection.State.Connecting,
            channel := some (startedChannel dc.port (attempts pre.length).socketRet) },
          notify dc.delegateAlive DeviceConnection.State.Connecting ++
            (attemptEffects inet_pton dc.host dc.port attempts 0 (pre.length + 1) ++
              (rel.map DeviceConnection.Effect.channel ++
                [DeviceConnection.Effect.channel Channel.Effect.threadStart,
                  DeviceConnection.Effect.channel
                    (Channel.Effect.channelDidChangeState Channel.State.Connecting)])))) ∧
    (∀ j, j < pre.length →
      (create_socket inet_pton dc.host dc.port (attempts j)).1 < 0 ∧
        (create_socket inet_pton dc.host dc.port (attempts j)).1 ≠ -EINVAL) := by
  have hloop := connectLoop_retries inet_pton (t0 + 200) attempts onInternalThread
    { dc with _state := DeviceConnection.State.Connecting } (tNext :: rest) hport hhost
    pre 0 hpre (fun j hj => by simpa using hfail j hj)
  have hae := attemptEffects_succ inet_pton dc.host dc.port attempts pre.length 0
  rw [Nat.zero_add] at hae
  refine ⟨?_, ?_, ?_, ?_⟩
  · intro hend
    unfold DeviceConnection.connect
    simp only [DeviceConnection.getState]
    rw [if_neg hstate, DeviceConnection.setState_ne dc _ hstate]
    simp only
    rw [hloop, DeviceConnection.connectLoop, if_neg (by omega)]
    simp only [Option.map_some', Nat.zero_add]
    rw [DeviceConnection.setState_ne _ _ (by simp)]
  · intro hbefore hinval
    have hr := create_socket_failure inet_pton dc.host dc.port (attempts pre.length) EINVAL
      hport hhost hinval
    unfold DeviceConnection.connect
    simp only [DeviceConnection.getState]
    rw [if_neg hstate, DeviceConnection.setState_ne dc _ hstate]
    simp only
    rw [hloop, DeviceConnection.connectLoop, if_pos hbefore]
    simp only [Nat.zero_add]
    rw [hae, hr]
    have hneg : ¬ (-EINVAL ≥ 0) := by decide
    simp only [hneg, if_false, if_true, Option.map_some']
    rw [DeviceConnection.setState_ne _ _ (by simp)]
    simp
  · intro rel hbefore hok hrel
    obtain ⟨hcs, hge⟩ := create_socket_success inet_pton dc.host dc.port (attempts pre.length)
      hport hhost hok
    unfold DeviceConnection.connect
    simp only [DeviceConnection.getState]
    rw [if_neg hstate, DeviceConnection.setState_ne dc _ hstate]
    simp only
    rw [hloop, DeviceConnection.connectLoop, if_pos hbefore]
    simp only [Nat.zero_add]
    rw [hae, hcs]
    have hge' : (attempts pre.length).socketRet ≥ 0 := hge
    simp only [hge', if_true, hrel]
    simp [Channel.start, Channel.StartInternalThread, Channel.new, Channel.getState,
      Channel.setState, DeviceConnection.observe, DeviceConnection.channelDidChangeState,
      DeviceConnection.getState, startedChannel]
  · intro j hj
    obtain ⟨e, he, hpos, hne⟩ := hfail j hj
    rw [create_socket_failure inet_pton dc.host dc.port (attempts j) e hport hhost he]
    exact ⟨by omega, fun h => hne (neg_injective h)⟩

/-- An instance of C5: `connect` refused with `ECONNREFUSED` (111) at
readings 1010 and 1100, the deadline 1200 found passed at reading 1200. -/
theorem connect_retries_witness :
    (DeviceConnection.mk "127.0.0.1" 2019 DeviceConnection.State.Disconnected none true).connect
        (fun _ => 1) [1000, 1010, 1100, 1200] (fun _ => ⟨3, 0, 0, 0, -1, 111⟩) false =
      some (true,
        DeviceConnection.mk "127.0.0.1" 2019 DeviceConnection.State.FailedToConnect none true,
        [DeviceConnection.Effect.connectionDidChangeState DeviceConnection.State.Connecting,
          DeviceConnection.Effect.createSocket (-111)
            [Syscall.socket, Syscall.setsockopt 3, Syscall.connect 3, Syscall.close 3],
          DeviceConnection.Effect.createSocket (-111)
            [Syscall.socket, Syscall.setsockopt 3, Syscall.connect 3, Syscall.close 3],
          DeviceConnection.Effect.connectionDidChangeState
            DeviceConnection.State.FailedToConnect]) :=
  (connect_retries
    (DeviceConnection.mk "127.0.0.1" 2019 DeviceConnection.State.Disconnected none true)
    (fun _ => 1) 1000 [1010, 1100] 1200 [] (fun _ => ⟨3, 0, 0, 0, -1, 111⟩) false
    (by decide) (by decide) (by decide) (fun _ _ => ⟨111, by rfl, by decide, by decide⟩)
    (by decide)).1 (by decide)

/-- C5 as stated fails: with a valid port and host, a `connect` call that
fails with error number `EINVAL` is not retried; `connect()` sets
`ImpossibleToConnect` after one attempt, well before the deadline. -/
theorem connect_einval_not_retried :
    (DeviceConnection.mk "127.0.0.1" 2019 DeviceConnection.State.Disconnected none true).connect
        (fun _ => 1) [1000, 1010, 1100, 1200] (fun _ => ⟨3, 0, 0, 0, -1, 22⟩) false =
      some (true,
        DeviceConnection.mk "127.0.0.1" 2019 DeviceConnection.State.ImpossibleToConnect none true,
        [DeviceConnection.Effect.connectionDidChangeState DeviceConnection.State.Connecting,
          DeviceConnection.Effect.createSocket (-22)
            [Syscall.socket, Syscall.setsockopt 3, Syscall.connect 3, Syscall.close 3],
          DeviceConnection.Effect.connectionDidChangeState
            DeviceConnection.State.ImpossibleToConnect]) := by
  decide

/-! ## DeviceConnection: state mapping and disconnect -/

/-- C6. State mapping of `channelDidChangeState`: for every manager state
and transport notification `t`, the manager becomes `Disconnected` if `t` is
`Disconnected`, `Errored` if `t` is `Errored`, `Connected` if `t` is
`Connected` and the manager is `Connecting`; in every other case the manager
is unchanged and its observer is not notified. -/
theorem channelDidChangeState_mapping (dc : DeviceConnection) (t : Channel.State) :
    (t = Channel.State.Disconnected →
      (dc.channelDidChangeState t).1._state = DeviceConnection.State.Disconnected) ∧
    (t = Channel.State.Errored →
      (dc.channelDidChangeState t).1._state = DeviceConnection.State.Errored) ∧
    (t = Channel.State.Connected → dc._state = DeviceConnection.State.Connecting →
      (dc.channelDidChangeState t).1._state = DeviceConnection.State.Connected) ∧
    (¬ (t = Channel.State.Disconnected ∨ t = Channel.State.Errored ∨
        (t = Channel.State.Connected ∧ dc._state = DeviceConnection.State.Connecting)) →
      dc.channelDidChangeState t = (dc, [])) := by
  refine ⟨?_, ?_, ?_, ?_⟩
  · intro h
    subst h
    simp only [DeviceConnection.channelDidChangeState, DeviceConnection.setState,
      DeviceConnection.getState, if_true]
    split
    · assumption
    · rfl
  · intro h
    subst h
    simp only [DeviceConnection.channelDidChangeState, DeviceConnection.setState,
      DeviceConnection.getState, if_true]
    rw [if_neg (by decide)]
    split
    · assumption
    · rfl
  · intro h hm
    subst h
    simp only [DeviceConnection.channelDidChangeState, DeviceConnection.setState,
      DeviceConnection.getState, hm, and_self, if_true]
    rw [if_neg (by decide), if_neg (by decide), if_neg (by decide)]
  · intro h
    simp only [not_or, not_and] at h
    obtain ⟨h1, h2, h3⟩ := h
    simp only [DeviceConnection.channelDidChangeState, DeviceConnection.getState]
    rw [if_neg h1, if_neg h2, if_neg (fun hc => h3 hc.2 hc.1)]

theorem Channel.close_effects (ch : Channel) (onInternalThread : Bool) (closeRet : Int) :
    (ch.close onInternalThread closeRet).2.2 = closeEffects ch onInternalThread := by
  unfold Channel.close closeEffects Channel.WaitForInternalThreadToExit
  cases onInternalThread <;> cases h : ch.threadJoinable <;> simp [h]

theorem Channel.close_channel (ch : Channel) (onInternalThread : Bool) (closeRet : Int) :
    (ch.close onInternalThread closeRet).2.1 =
      { ch with running := false, threadJoinable := ch.threadJoinable && onInternalThread } := by
  unfold Channel.close Channel.WaitForInternalThreadToExit
  cases onInternalThread <;> cases h : ch.threadJoinable <;> simp [h]

/-- C7, as the code has it. `disconnect()` called in state `Connected` with
an owned transport closes it: one `::close` of its descriptor, after joining
the worker when the caller is another thread. When `::close` fails, on any
thread, the manager keeps the (stopped) transport and the state becomes
`Disconnected`. When `::close` returns 0 and the caller is not the
transport's worker thread, the transport is released, the manager owns none
and the state becomes `Disconnected`. In both cases a live observer is
notified of `Disconnected`. Called in any other state `disconnect()` returns
false and changes nothing, closes nothing and notifies nobody. -/
theorem disconnect_spec (dc : DeviceConnection) (onInternalThread : Bool) (closeRet : Int) :
    (∀ ch, dc._state = DeviceConnection.State.Connected → dc.channel = some ch →
      closeRet ≠ 0 →
      dc.disconnect onInternalThread closeRet =
        some (true,
          { dc with
            _state := DeviceConnection.State.Disconnected,
            channel := some { ch with
              running := false,
              threadJoinable := ch.threadJoinable && onInternalThread } },
          (closeEffects ch onInternalThread).map DeviceConnection.Effect.channel ++
            notify dc.delegateAlive DeviceConnection.State.Disconnected)) ∧
    (∀ ch, dc._state = DeviceConnection.State.Connected → dc.channel = some ch →
      closeRet = 0 → onInternalThread = false →
      dc.disconnect onInternalThread closeRet =
        some (false,
          { dc with _state := DeviceConnection.State.Disconnected, channel := none },
          (closeEffects ch onInternalThread).map DeviceConnection.Effect.channel ++
            notify dc.delegateAlive DeviceConnection.State.Disconnected)) ∧
    (dc._state ≠ DeviceConnection.State.Connected →
      dc.disconnect onInternalThread closeRet = some (false, dc, [])) := by
  refine ⟨?_, ?_, ?_⟩
  · intro ch hs hc h0
    unfold DeviceConnection.disconnect
    simp only [DeviceConnection.getState, hs, ne_eq, not_true_eq_false, if_false, hc]
    have hret : (ch.close onInternalThread closeRet).1 = (closeRet != 0) := rfl
    have hb : (closeRet != 0) = true := by simpa using h0
    rw [Channel.close_effects, Channel.close_channel, hret, hb]
    simp only [Bool.true_eq_false, if_false]
    rw [DeviceConnection.setState_ne _ _ (by simp [hs])]
  · intro ch hs hc h0 ht
    subst h0; subst ht
    unfold DeviceConnection.disconnect
    simp only [DeviceConnection.getState, hs, ne_eq, not_true_eq_false, if_false, hc]
    have hret : (ch.close false 0).1 = false := rfl
    rw [Channel.close_effects, Channel.close_channel, hret]
    simp only [if_true, releaseChannel, Channel.destructor, Bool.false_eq_true, if_false,
      Channel.WaitForInternalThreadToExit, Bool.and_false, List.append_nil]
    rw [DeviceConnection.setState_ne _ _ (by simp [hs])]
  · intro hs
    unfold DeviceConnection.disconnect
    simp only [DeviceConnection.getState]
    rw [if_pos hs]

/-- On the worker thread, where the manager is `Connected` only inside a
callback the worker makes with `worker_mutex` held, a `disconnect()` whose
`::close` returns 0 releases the transport there and has no result. -/
theorem disconnect_on_worker_thread (dc : DeviceConnection) (ch : Channel)
    (hs : dc._state = DeviceConnection.State.Connected) (hc : dc.channel = some ch) :
    dc.disconnect true 0 = none := by
  unfold DeviceConnection.disconnect
  simp only [DeviceConnection.getState, hs, ne_eq, not_true_eq_false, if_false, hc]
  have hret : (ch.close true 0).1 = false := rfl
  rw [hret]
  simp [releaseChannel, Channel.destructor]

/-- An instance of C7: a connected manager whose `::close` returns 0,
called from a thread other than the worker. -/
theorem disconnect_spec_witness :
    (DeviceConnection.mk "127.0.0.1" 2019 DeviceConnection.State.Connected
        (some (Channel.mk 2019 5 Channel.State.Connected true true true)) true).disconnect
        false 0 =
      some (false,
        DeviceConnection.mk "127.0.0.1" 2019 DeviceConnection.State.Disconnected none true,
        [DeviceConnection.Effect.channel Channel.Effect.threadJoin,
          DeviceConnection.Effect.channel (Channel.Effect.close 5),
          DeviceConnection.Effect.connectionDidChangeState
            DeviceConnection.State.Disconnected]) := by
  exact (disconnect_spec
    (DeviceConnection.mk "127.0.0.1" 2019 DeviceConnection.State.Connected
      (some (Channel.mk 2019 5 Channel.State.Connected true true true)) true) false 0).2.1
    (Channel.mk 2019 5 Channel.State.Connected true true true) rfl rfl rfl rfl

/-- C7 as stated fails: when `::close` fails (returns -1) `disconnect()`
called in state `Connected` keeps the transport; the manager still owns it
afterwards. -/
theorem disconnect_keeps_channel_on_close_failure :
    (DeviceConnection.mk "127.0.0.1" 2019 DeviceConnection.State.Connected
        (some (Channel.mk 2019 5 Channel.State.Connected true true true)) true).disconnect
        false (-1) =
      some (true,
        DeviceConnection.mk "127.0.0.1" 2019 DeviceConnection.State.Disconnected
          (some (Channel.mk 2019 5 Channel.State.Connected false true false)) true,
        [DeviceConnection.Effect.channel Channel.Effect.threadJoin,
          DeviceConnection.Effect.channel (Channel.Effect.close 5),
          DeviceConnection.Effect.connectionDidChangeState
            DeviceConnection.State.Disconnected]) := by
  decide

/-! ## Channel: send, the worker loop, and the Errored state -/

/-- C8, the code at the failing input. `send` on a channel that is not
`Connected` makes no write and returns `false`, and `send` on a `Connected`
channel whose single write of the 3-byte payload completes returns `false`
as well; only a failed write returns `true`. -/
theorem send_result_conflates_success_and_not_connected :
    (Channel.mk 2019 5 Channel.State.Disconnected false true false).send [1, 2, 3] 3 =
      (false, []) ∧
    (Channel.mk 2019 5 Channel.State.Connected true true true).send [1, 2, 3] 3 =
      (false, [Channel.Effect.send 5 3]) ∧
    (Channel.mk 2019 5 Channel.State.Connected true true true).send [1, 2, 3] (-1) =
      (true, [Channel.Effect.send 5 3]) := by
  decide

/-- What `send` does in general: no write unless `Connected`, else one
write of the whole payload; the result is `true` exactly for a failed write. -/
theorem Channel.send_eq (ch : Channel) (data : List Nat) (sendRet : Int) :
    ch.send data sendRet =
      if ch._state = Channel.State.Connected then
        (decide (sendRet < 0), [Channel.Effect.send ch.conn data.length])
      else (false, []) := by
  unfold Channel.send Channel.getState
  by_cases h : ch._state = Channel.State.Connected
  · rw [if_neg (by simpa using h), if_pos h]
    by_cases hr : sendRet < 0 <;> simp [hr]
  · rw [if_pos h, if_neg h]

/-- C9, the code at the failing input. A worker iteration on a
`Connecting` channel whose descriptor is reported readable and whose `recv`
fails with -1: the count becomes 4294967295, the failure branch is not
taken, the channel turns `Connected` and a buffer of 4294967295 bytes is
delivered; the descriptor is not closed and the state is not `Errored`. -/
theorem failed_recv_is_taken_as_data :
    (Channel.mk 2019 5 Channel.State.Connecting true true true).InternalThreadEntry
        [(1, 0)] (-1) 104 0 =
      some (Channel.mk 2019 5 Channel.State.Connected true true true,
        [Channel.Effect.recv 5,
          Channel.Effect.channelDidChangeState Channel.State.Connected,
          Channel.Effect.channelDidReceiveData 4294967295]) := by
  decide

/-- A failed `recv` never reaches the error branch: for every channel,
every positive result of `socket_check_fd` and every `errno`, the loop body
with `recv` returning -1 closes nothing and leaves a state that is
`Connected` if it was `Connecting` and unchanged otherwise. -/
theorem Channel.receive_failed_recv (ch : Channel) (ret errno closeRet : Int) (h : 0 < ret) :
    (ch.receive ret (-1) errno closeRet).1._state =
        (if ch._state = Channel.State.Connecting then Channel.State.Connected
          else ch._state) ∧
      Channel.Effect.close ch.conn ∉ (ch.receive ret (-1) errno closeRet).2 := by
  unfold Channel.receive
  have hn : ((-1 : Int) % 2 ^ 32).toNat = 4294967295 := by decide
  simp only [gt_iff_lt, h, if_true, hn, decide_True, Bool.true_and, Nat.not_lt_zero, if_false]
  by_cases hc : ch._state = Channel.State.Connecting
  · simp [Channel.getState, Channel.setState, hc]
  · simp [Channel.getState, hc]

/-- C10, as the code has it. From a state with `Errored`, every `close()`,
`send()` and worker-loop step has a result and leaves `Errored`. `start()`
is not refused in `Errored`: when the worker thread is not joinable (it has
been joined) `start()` has a result and the state is `Connecting`; while the
worker thread is still joinable `start()` has no result, the assignment to
the joinable `std::thread` calling `std::terminate`. -/
theorem errored_steps (ch : Channel) (op : Channel.Op)
    (herr : ch._state = Channel.State.Errored) :
    (op ≠ Channel.Op.start →
      ∃ ch', ch.step op = some ch' ∧ ch'._state = Channel.State.Errored) ∧
    (op = Channel.Op.start →
      (ch.threadJoinable = false →
        ∃ ch', ch.step op = some ch' ∧ ch'._state = Channel.State.Connecting) ∧
      (ch.threadJoinable = true → ch.step op = none) ∧
      ∀ ch', ch.step op = some ch' → ch'._state = Channel.State.Connecting) := by
  constructor
  · intro hop
    cases op with
    | start => exact absurd rfl hop
    | close t c =>
      refine ⟨_, rfl, ?_⟩
      rw [Channel.close_channel]
      exact herr
    | send d r => exact ⟨ch, rfl, herr⟩
    | worker s r e c =>
      refine ⟨ch, ?_, herr⟩
      show (ch.InternalThreadEntry s r e c).map (fun r => r.1) = some ch
      unfold Channel.InternalThreadEntry Channel.getState
      by_cases hr : ch.running = false
      · rw [if_pos hr]; rfl
      · rw [if_neg hr, if_pos herr]; rfl
  · intro hop
    subst hop
    have hstart : ∀ ch', ch.step Channel.Op.start = some ch' →
        ch'._state = Channel.State.Connecting := by
      intro ch' h
      unfold Channel.step Channel.start Channel.StartInternalThread Channel.getState at h
      rw [herr, if_neg (by decide)] at h
      by_cases hj : ch.threadJoinable = true
      · simp [hj] at h
      · simp [hj, Channel.setState, Channel.getState, herr] at h
        rw [← h]
    refine ⟨?_, ?_, hstart⟩
    · intro hj
      have : ∃ ch', ch.step Channel.Op.start = some ch' := by
        unfold Channel.step Channel.start Channel.StartInternalThread Channel.getState
        rw [herr, if_neg (by decide)]
        simp [hj]
      obtain ⟨ch', h⟩ := this
      exact ⟨ch', h, hstart ch' h⟩
    · intro hj
      unfold Channel.step Channel.start Channel.StartInternalThread Channel.getState
      rw [herr, if_neg (by decide)]
      simp [hj]

/-- An instance of C10: an `Errored` channel whose worker has been joined,
under `close()` from another thread. -/
theorem errored_steps_witness :
    ∃ ch', (Channel.mk 2019 5 Channel.State.Errored false true false).step
        (Channel.Op.close false (-1)) = some ch' ∧ ch'._state = Channel.State.Errored :=
  (errored_steps (Channel.mk 2019 5 Channel.State.Errored false true false)
    (Channel.Op.close false (-1)) rfl).1 (by intro h; cases h)

/-- C10 as stated fails. A fresh channel with a live observer is started,
its worker reads zero bytes and sets `Errored`, another thread calls
`close()` (joining the worker); `start()` on that `Errored` channel then
succeeds and leaves the state `Connecting`. -/
theorem start_leaves_errored :
    (Channel.mk 2019 5 Channel.State.Disconnected false true false).step Channel.Op.start =
      some (Channel.mk 2019 5 Channel.State.Connecting true true true) ∧
    (Channel.mk 2019 5 Channel.State.Connecting true true true).step
        (Channel.Op.worker [(1, 0)] 0 0 0) =
      some (Channel.mk 2019 5 Channel.State.Errored false true true) ∧
    (Channel.mk 2019 5 Channel.State.Errored false true true).step
        (Channel.Op.close false (-1)) =
      some (Channel.mk 2019 5 Channel.State.Errored false true false) ∧
    (Channel.mk 2019 5 Channel.State.Errored false true false).step Channel.Op.start =
      some (Channel.mk 2019 5 Channel.State.Connecting true true true) := by
  decide

/-! ## setState -/

/-- C11. State no-op for `Channel::setState` and
`DeviceConnection::setState`: requesting the current state changes nothing
and notifies nobody; requesting a different state `s'` makes the state `s'`
(nothing else changes) and a live observer receives exactly one
notification, carrying `s'` (none is made when no observer is alive). -/
theorem setState_noop_or_one_notification (ch : Channel) (dc : DeviceConnection)
    (s' : Channel.State) (t' : DeviceConnection.State) :
    (s' = ch._state → ch.setState s' = (ch, [])) ∧
    (s' ≠ ch._state →
      (ch.setState s').1 = { ch with _state := s' } ∧
      (ch.delegateAlive = true →
        (ch.setState s').2 = [Channel.Effect.channelDidChangeState s']) ∧
      (ch.delegateAlive = false → (ch.setState s').2 = [])) ∧
    (t' = dc._state → dc.setState t' = (dc, [])) ∧
    (t' ≠ dc._state →
      (dc.setState t').1 = { dc with _state := t' } ∧
      (dc.delegateAlive = true →
        (dc.setState t').2 = [DeviceConnection.Effect.connectionDidChangeState t']) ∧
      (dc.delegateAlive = false → (dc.setState t').2 = [])) := by
  refine ⟨?_, ?_, ?_, ?_⟩
  · intro h
    unfold Channel.setState Channel.getState
    rw [if_pos h]
  · intro h
    unfold Channel.setState Channel.getState
    rw [if_neg h]
    refine ⟨rfl, ?_, ?_⟩
    · intro ha; simp [ha]
    · intro ha; simp [ha]
  · intro h
    unfold DeviceConnection.setState DeviceConnection.getState
    rw [if_pos h.symm]
  · intro h
    unfold DeviceConnection.setState DeviceConnection.getState
    rw [if_neg (fun e => h e.symm)]
    refine ⟨rfl, ?_, ?_⟩
    · intro ha; simp [ha]
    · intro ha; simp [ha]

/-! ## The extraction step -/

/-- Before the index the scan returns, the scan condition holds nowhere. -/
theorem naluLen_first (buffer : List Nat) (hn : naluLen buffer ≠ 0) :
    ∀ k, headSize buffer ≤ k → k < headSize buffer + naluLen buffer →
      startCodeAt buffer k = false := by
  unfold naluLen at hn ⊢
  obtain ⟨j, hij, -, -, hfirst, hnj, -⟩ := scanLoop_inv buffer _ _ _ _ rfl hn
  intro k hk hkj
  exact hfirst k hk (by omega)

/-- The scan returns the distance from the head to the first index, from
the end of the head on, where the scan condition holds within bounds. -/
theorem naluLen_of_first (buffer : List Nat) (i : Nat) (hw : headSize buffer ≤ i)
    (hi : i + 3 < buffer.length) (hm : startCodeAt buffer i = true)
    (hfirst : ∀ k, headSize buffer ≤ k → k < i → startCodeAt buffer k = false) :
    naluLen buffer = i - headSize buffer := by
  unfold naluLen
  exact scanLoop_found buffer (headSize buffer) i buffer.length (headSize buffer) hw hi hm
    hfirst (by omega)

/-- The extraction step for a non-empty payload: when the scan's first
match is at `i`, past the end of the head, the call emits the unit of the
bytes at offsets `[w, i)` first and goes on with the buffer without its
first `i` bytes. -/
theorem processData_extraction (b c : List Nat) (i : Nat)
    (hw : headSize (b ++ c) < i) (hi : i + 3 < (b ++ c).length)
    (hm : startCodeAt (b ++ c) i = true)
    (hfirst : ∀ k, headSize (b ++ c) ≤ k → k < i → startCodeAt (b ++ c) k = false) :
    (SimpleDataPacketProtocol.mk b).processData c =
      ((⟨1, 101, 0,
          [0, 0, 0, 1] ++ ((b ++ c).drop (headSize (b ++ c))).take (i - headSize (b ++ c))⟩ :
            DataPacket) ::
          ((SimpleDataPacketProtocol.mk ((b ++ c).drop i)).processData []).1,
        ((SimpleDataPacketProtocol.mk ((b ++ c).drop i)).processData []).2) := by
  have hn := naluLen_of_first (b ++ c) i (by omega) hi hm hfirst
  rw [processData_eq, processData_eq]
  simp only [List.append_nil]
  obtain ⟨g, hg⟩ : ∃ g, (b ++ c).length = g + 1 := ⟨(b ++ c).length - 1, by omega⟩
  rw [hg, processLoop_step g (b ++ c) (by omega) (by omega)]
  have hd : headSize (b ++ c) + naluLen (b ++ c) = i := by omega
  rw [hd]
  have hfuel := processLoop_fuel g ((b ++ c).drop i).length ((b ++ c).drop i)
    (by rw [List.length_drop]; omega) (Nat.le_refl _)
  rw [hfuel]
  unfold headPacket
  rw [hn]

/-- C12, the code at the failing input. In the accumulator
`00 00 01 00 00 01 05` the head has width 3 and the scan finds its first
start-code pattern at offset 3, right after the head; `processData` emits no
unit and removes nothing. -/
theorem adjacent_start_code_emits_nothing :
    headSize [0, 0, 1, 0, 0, 1, 5] = 3 ∧
    startCodeAt [0, 0, 1, 0, 0, 1, 5] 3 = true ∧
    SimpleDataPacketProtocol.new.processData [0, 0, 1, 0, 0, 1, 5] =
      ([], ⟨[0, 0, 1, 0, 0, 1, 5]⟩) := by
  decide

/-! ## Stall on adjacent start codes -/

theorem startCodeAt_head (sc rest : List Nat) (hsc : isStartCode sc)
    (hlen : 4 ≤ (sc ++ rest).length) : startCodeAt (sc ++ rest) 0 = true := by
  rcases hsc with rfl | rfl
  · simp [startCodeAt]
  · simp [startCodeAt]

/-- A start code right after the head start code is found by the scan at
once, which leaves `naluLength` at 0. -/
theorem naluLen_adjacent (sc sc' rest : List Nat) (hsc : isStartCode sc)
    (hsc' : isStartCode sc') (hlen : sc.length + 4 ≤ (sc ++ sc' ++ rest).length) :
    naluLen (sc ++ sc' ++ rest) = 0 := by
  have hh : headSize (sc ++ sc' ++ rest) = sc.length := by
    rw [List.append_assoc]; exact headSize_startCode sc (sc' ++ rest) hsc
  have hm : startCodeAt (sc ++ sc' ++ rest) sc.length = true := by
    have := startCodeAt_append_right sc (sc' ++ rest) 0
    rw [Nat.add_zero, ← List.append_assoc] at this
    rw [this]
    apply startCodeAt_head sc' rest hsc'
    simp only [List.length_append] at hlen ⊢
    omega
  have := naluLen_of_first (sc ++ sc' ++ rest) sc.length (by omega) (by omega) hm
    (fun k hk hkj => by omega)
  rw [this, hh]
  omega

theorem processData_adjacent (sc sc' rest c : List Nat) (hsc : isStartCode sc)
    (hsc' : isStartCode sc') (hlen : sc.length + 4 ≤ (sc ++ sc' ++ rest).length) :
    (SimpleDataPacketProtocol.mk (sc ++ sc' ++ rest)).processData c =
      ([], ⟨sc ++ sc' ++ (rest ++ c)⟩) := by
  rw [processData_eq]
  simp only [List.append_assoc] at hlen ⊢
  have hn := naluLen_adjacent sc sc' (rest ++ c) hsc hsc'
    (by simp only [List.length_append] at hlen ⊢; omega)
  simp only [List.append_assoc] at hn
  rw [processLoop_stall _ _ hn]

theorem feedAll_adjacent (sc sc' : List Nat) (hsc : isStartCode sc) (hsc' : isStartCode sc') :
    ∀ (chunks : List (List Nat)) (rest : List Nat),
      sc.length + 4 ≤ (sc ++ sc' ++ rest).length →
      feedAll ⟨sc ++ sc' ++ rest⟩ chunks =
        (chunks.map (fun _ => []), ⟨sc ++ sc' ++ rest ++ allBytes chunks⟩) := by
  intro chunks
  induction chunks with
  | nil => intro rest _; simp [feedAll, allBytes]
  | cons c cs ih =>
    intro rest hlen
    rw [feedAll, processData_adjacent sc sc' rest c hsc hsc' hlen]
    simp only
    rw [ih (rest ++ c) (by simp only [List.length_append] at hlen ⊢; omega)]
    simp [allBytes, List.append_assoc]

/-- C13. Permanent stall on adjacent start codes: when the accumulator is
a start code `sc` immediately followed by a start code `sc'` and holds at
least `sc.length + 4` bytes, every sequence of `processData` calls returns an
empty unit list at each call and leaves the old accumulator with the chunks
appended; `reset()` then leaves the framer as a fresh one. -/
theorem stall_on_adjacent_start_codes (sc sc' rest : List Nat)
    (hsc : sc = [0, 0, 1] ∨ sc = [0, 0, 0, 1]) (hsc' : sc' = [0, 0, 1] ∨ sc' = [0, 0, 0, 1])
    (hlen : sc.length + 4 ≤ (sc ++ sc' ++ rest).length) (chunks : List (List Nat)) :
    feedAll ⟨sc ++ sc' ++ rest⟩ chunks =
        (chunks.map (fun _ => []), ⟨sc ++ sc' ++ rest ++ allBytes chunks⟩) ∧
      (feedAll ⟨sc ++ sc' ++ rest⟩ chunks).2.reset = SimpleDataPacketProtocol.new :=
  ⟨feedAll_adjacent sc sc' hsc hsc' chunks rest hlen, rfl⟩

/-- An instance of C13: the accumulator `00 00 01 00 00 00 01` swallows a
whole well-formed stream fed in two chunks. -/
theorem stall_on_adjacent_start_codes_witness :
    feedAll ⟨[0, 0, 1] ++ [0, 0, 0, 1] ++ []⟩
        [[0xAA, 0, 0, 1, 0xBB], [0xCC, 0, 0, 0, 1, 0xDD]] =
      ([[], []],
        ⟨[0, 0, 1] ++ [0, 0, 0, 1] ++ [] ++ [0xAA, 0, 0, 1, 0xBB, 0xCC, 0, 0, 0, 1, 0xDD]⟩) ∧
    (feedAll ⟨[0, 0, 1] ++ [0, 0, 0, 1] ++ []⟩
        [[0xAA, 0, 0, 1, 0xBB], [0xCC, 0, 0, 0, 1, 0xDD]]).2.reset =
      SimpleDataPacketProtocol.new :=
  stall_on_adjacent_start_codes [0, 0, 1] [0, 0, 0, 1] [] (by decide) (by decide) (by decide)
    [[0xAA, 0, 0, 1, 0xBB], [0xCC, 0, 0, 0, 1, 0xDD]]

/-! ## Emitted units are well delimited -/

/-- The packet built at an extraction: at least one payload byte after the
canonical prefix, and no `00 00 01` in the payload, since the scan stopped
at the first index where its condition holds. -/
theorem headPacket_delimited (buffer : List Nat) (hn : naluLen buffer ≠ 0) :
    5 ≤ (headPacket buffer).data.length ∧ [0, 0, 0, 1] <+: (headPacket buffer).data ∧
      ¬ [0, 0, 1] <:+: (headPacket buffer).data.drop 4 := by
  have hs := headSize_cases buffer
  have hb := naluLen_bound buffer hn
  have hfirst := naluLen_first buffer hn
  have hdata : (headPacket buffer).data =
      [0, 0, 0, 1] ++ (buffer.drop (headSize buffer)).take (naluLen buffer) := rfl
  have hdrop : (headPacket buffer).data.drop 4 =
      (buffer.drop (headSize buffer)).take (naluLen buffer) := rfl
  have hlen : ((buffer.drop (headSize buffer)).take (naluLen buffer)).length =
      naluLen buffer := by
    rw [List.length_take, List.length_drop]; omega
  refine ⟨?_, ?_, ?_⟩
  · rw [hdata, List.length_append, hlen]
    simp only [List.length_cons, List.length_nil]
    omega
  · rw [hdata]; exact ⟨_, rfl⟩
  · rw [hdrop]
    rintro ⟨u, v, huv⟩
    have hsplit : buffer =
        (buffer.take (headSize buffer) ++ u) ++
          ([0, 0, 1] ++ (v ++ (buffer.drop (headSize buffer)).drop (naluLen buffer))) := by
      have h1 := List.take_append_drop (naluLen buffer) (buffer.drop (headSize buffer))
      have h2 := List.take_append_drop (headSize buffer) buffer
      rw [← huv] at h1
      rw [← h1] at h2
      simp only [List.append_assoc] at h2 ⊢
      exact h2.symm
    have hul : u.length + 3 + v.length = naluLen buffer := by
      rw [← hlen, ← huv]
      simp only [List.length_append, List.length_cons, List.length_nil]
    have htl : (buffer.take (headSize buffer) ++ u).length = headSize buffer + u.length := by
      rw [List.length_append, List.length_take]; omega
    have hm : startCodeAt buffer (headSize buffer + u.length) = true := by
      have := startCodeAt_append_right (buffer.take (headSize buffer) ++ u)
        ([0, 0, 1] ++ (v ++ (buffer.drop (headSize buffer)).drop (naluLen buffer))) 0
      rw [← hsplit, htl, Nat.add_zero] at this
      rw [this]
      simp [startCodeAt]
    have hf := hfirst (headSize buffer + u.length) (by omega) (by omega)
    rw [hm] at hf
    exact absurd hf (by simp)

theorem processLoop_delimited :
    ∀ (fuel : Nat) (buffer : List Nat) (u : DataPacket), u ∈ (processLoop fuel buffer).1 →
      5 ≤ u.data.length ∧ [0, 0, 0, 1] <+: u.data ∧ ¬ [0, 0, 1] <:+: u.data.drop 4 := by
  intro fuel
  induction fuel with
  | zero => intro buffer u hu; simp [processLoop] at hu
  | succ f ih =>
    intro buffer u hu
    by_cases h4 : 4 ≤ buffer.length
    · by_cases hn : naluLen buffer = 0
      · rw [processLoop_stall _ _ hn] at hu; simp at hu
      · rw [processLoop_step _ _ h4 hn] at hu
        rcases List.mem_cons.mp hu with rfl | hu
        · exact headPacket_delimited buffer hn
        · exact ih _ u hu
    · rw [processLoop_short _ buffer (by omega)] at hu; simp at hu

/-- C14. Emitted units are well delimited: for every accumulator `b` and
chunk `c`, with no condition on the bytes, every unit `processData` returns
has data of length at least 5 that begins with `00 00 00 01`, and the bytes
after these four contain no `00 00 01`. -/
theorem processData_units_delimited (b c : List Nat) (u : DataPacket)
    (hu : u ∈ ((SimpleDataPacketProtocol.mk b).processData c).1) :
    5 ≤ u.data.length ∧ [0, 0, 0, 1] <+: u.data ∧ ¬ [0, 0, 1] <:+: u.data.drop 4 := by
  rw [processData_eq] at hu
  exact processLoop_delimited _ _ u hu

/-- An instance of C14: the second unit of the spec's Example 2, fed in two
chunks with no start code at the head of the second. -/
theorem processData_units_delimited_witness :
    (⟨1, 101, 0, [0, 0, 0, 1, 0xCC, 0xDD, 0xEE]⟩ : DataPacket) ∈
        ((SimpleDataPacketProtocol.mk [0, 0, 0, 1, 0xAA]).processData
          [0xBB, 0, 0, 1, 0xCC, 0xDD, 0xEE, 0, 0, 0, 1, 0xFF]).1 ∧
      5 ≤ [0, 0, 0, 1, 0xCC, 0xDD, 0xEE].length ∧
      [0, 0, 0, 1] <+: [0, 0, 0, 1, 0xCC, 0xDD, 0xEE] ∧
      ¬ [0, 0, 1] <:+: [0, 0, 0, 1, 0xCC, 0xDD, 0xEE].drop 4 :=
  ⟨by decide,
    processData_units_delimited [0, 0, 0, 1, 0xAA]
      [0xBB, 0, 0, 1, 0xCC, 0xDD, 0xEE, 0, 0, 0, 1, 0xFF]
      ⟨1, 101, 0, [0, 0, 0, 1, 0xCC, 0xDD, 0xEE]⟩ (by decide)⟩

/-! ## The scan boundary -/

theorem take_drop_append (pre sc : List Nat) (w : Nat) (hw : w ≤ pre.length) :
    ((pre ++ sc).drop w).take (pre.length - w) = pre.drop w := by
  rw [List.drop_append_of_le_length hw]
  have : pre.length - w = (pre.drop w).length := by rw [List.length_drop]
  rw [this, List.take_left]

theorem startCodeAt_three (pre t : List Nat) :
    startCodeAt (pre ++ ([0, 0, 1] ++ t)) pre.length = true := by
  have := startCodeAt_append_right pre ([0, 0, 1] ++ t) 0
  rw [Nat.add_zero] at this
  rw [this]
  simp [startCodeAt]

theorem startCodeAt_four (pre t : List Nat) :
    startCodeAt (pre ++ ([0, 0, 0, 1] ++ t)) pre.length = true := by
  have := startCodeAt_append_right pre ([0, 0, 0, 1] ++ t) 0
  rw [Nat.add_zero] at this
  rw [this]
  simp [startCodeAt]

/-- C15, as the code has it. Let the accumulator after the chunk is
appended be `pre` followed by a start code that is the scan's first
candidate past a non-empty payload (the scan condition holds nowhere from
the end of the head up to `pre.length`). If that code is the 3-byte
`00 00 01`, ending at the final byte, the call emits nothing and keeps the
accumulator, and a next call bringing at least one byte emits the unit of
`pre` without its head. If that code is the 4-byte `00 00 00 01`, ending
at the final byte, the scan recognises it and the call itself emits that
unit, leaving `00 00 00 01`. In every buffer, an index the scan returns is
followed by at least three more bytes, so a 3-byte code ending at the final
byte is never the one found. -/
theorem scan_boundary (b c pre : List Nat) (x : Nat) (xs : List Nat)
    (hw : headSize (b ++ c) < pre.length)
    (hfirst : ∀ k, headSize (b ++ c) ≤ k → k < pre.length →
      startCodeAt (b ++ c) k = false) :
    (b ++ c = pre ++ [0, 0, 1] →
      (SimpleDataPacketProtocol.mk b).processData c = ([], ⟨b ++ c⟩) ∧
      (SimpleDataPacketProtocol.mk (b ++ c)).processData (x :: xs) =
        ((⟨1, 101, 0, [0, 0, 0, 1] ++ pre.drop (headSize (b ++ c))⟩ : DataPacket) ::
            ((SimpleDataPacketProtocol.mk ([0, 0, 1] ++ x :: xs)).processData []).1,
          ((SimpleDataPacketProtocol.mk ([0, 0, 1] ++ x :: xs)).processData []).2)) ∧
    (b ++ c = pre ++ [0, 0, 0, 1] →
      (SimpleDataPacketProtocol.mk b).processData c =
        ([(⟨1, 101, 0, [0, 0, 0, 1] ++ pre.drop (headSize (b ++ c))⟩ : DataPacket)],
          ⟨[0, 0, 0, 1]⟩)) ∧
    (∀ buffer : List Nat, naluLen buffer ≠ 0 →
      headSize buffer + naluLen buffer + 3 < buffer.length) := by
  have hs := headSize_cases (b ++ c)
  refine ⟨?_, ?_, fun buffer hn => (naluLen_bound buffer hn).1⟩
  · intro h
    have hlen : (b ++ c).length = pre.length + 3 := by rw [h]; simp
    constructor
    · rw [processData_eq]
      have hn : naluLen (b ++ c) = 0 := by
        unfold naluLen
        apply scanLoop_none
        intro k hk hk3
        exact hfirst k hk (by omega)
      rw [processLoop_stall _ _ hn]
    · have hh : headSize (b ++ c ++ x :: xs) = headSize (b ++ c) :=
        headSize_append (b ++ c) (x :: xs) (by omega)
      have hm : startCodeAt (b ++ c ++ x :: xs) pre.length = true := by
        rw [h, List.append_assoc]
        exact startCodeAt_three pre (x :: xs)
      have hf : ∀ k, headSize (b ++ c ++ x :: xs) ≤ k → k < pre.length →
          startCodeAt (b ++ c ++ x :: xs) k = false := by
        intro k hk hkj
        rw [startCodeAt_append _ _ _ (by omega)]
        exact hfirst k (by omega) hkj
      have he := processData_extraction (b ++ c) (x :: xs) pre.length (by omega)
        (by simp only [List.length_append, List.length_cons] at hlen ⊢; omega) hm hf
      rw [he, hh]
      have hp : ((b ++ c ++ x :: xs).drop (headSize (b ++ c))).take
          (pre.length - headSize (b ++ c)) = pre.drop (headSize (b ++ c)) := by
        have hle : headSize (b ++ c) ≤ pre.length := by omega
        generalize headSize (b ++ c) = w at hle ⊢
        rw [h, List.append_assoc]
        exact take_drop_append pre _ w hle
      have hd : (b ++ c ++ x :: xs).drop pre.length = [0, 0, 1] ++ x :: xs := by
        rw [h, List.append_assoc, List.drop_left]
      rw [hp, hd]
  · intro h
    have hlen : (b ++ c).length = pre.length + 4 := by rw [h]; simp
    have hm : startCodeAt (b ++ c) pre.length = true := by
      rw [h]
      have := startCodeAt_four pre []
      rwa [List.append_nil] at this
    have he := processData_extraction b c pre.length hw (by omega) hm hfirst
    rw [he]
    have hp : ((b ++ c).drop (headSize (b ++ c))).take (pre.length - headSize (b ++ c)) =
        pre.drop (headSize (b ++ c)) := by
      have hle : headSize (b ++ c) ≤ pre.length := by omega
      generalize headSize (b ++ c) = w at hle ⊢
      rw [h]
      exact take_drop_append pre _ w hle
    have hd : (b ++ c).drop pre.length = [0, 0, 0, 1] := by
      rw [h, List.drop_left]
    rw [hp, hd]
    rfl

/-- An instance of C15: `00 00 00 01 AA BB 00 00 01` emits nothing, and
the unit of `AA BB` comes out once the byte `CC` has arrived. -/
theorem scan_boundary_witness :
    (SimpleDataPacketProtocol.mk [0, 0, 0, 1]).processData [0xAA, 0xBB, 0, 0, 1] =
        ([], ⟨[0, 0, 0, 1] ++ [0xAA, 0xBB, 0, 0, 1]⟩) ∧
      (SimpleDataPacketProtocol.mk ([0, 0, 0, 1] ++ [0xAA, 0xBB, 0, 0, 1])).processData [0xCC] =
        ([⟨1, 101, 0, [0, 0, 0, 1, 0xAA, 0xBB]⟩], ⟨[0, 0, 1, 0xCC]⟩) :=
  (scan_boundary [0, 0, 0, 1] [0xAA, 0xBB, 0, 0, 1] [0, 0, 0, 1, 0xAA, 0xBB] 0xCC []
    (by decide) (by decide)).1 rfl

/-- C15 as stated fails for the 4-byte start code: in
`00 00 00 01 AA 00 00 00 01` the second start code ends at the final byte
of the accumulator, and the call recognises it and emits the unit of `AA`. -/
theorem four_byte_code_at_end_is_recognised :
    SimpleDataPacketProtocol.new.processData [0, 0, 0, 1, 0xAA, 0, 0, 0, 1] =
      ([⟨1, 101, 0, [0, 0, 0, 1, 0xAA]⟩], ⟨[0, 0, 0, 1]⟩) := by
  decide

end portal
